import Mathlib

/-!
Verification of the evaluation-and-generation orchestration engine of the
pitch_perfect repository (`llm_evaluator.py`, `gemini_evaluator.py`,
`evaluation_orchestrator.py`, `ppt_reconstructor.py`, `semantic_scorer.py`).

The Python code is shallowly embedded:
* JSON / Python-dict values are the inductive type `Json`; Python numbers
  (int and float alike) are modelled as exact rationals `ℚ`, so `round`
  is exact round-half-to-even on rationals.
* Python exceptions are modelled with `Except PyErr`.
* Python dicts are insertion-ordered association lists; updating an
  existing key keeps its position, new keys are appended (CPython
  semantics).
* External collaborators (the transformer models, the embedding model,
  the pptx renderer, the network) are abstracted as oracle parameters;
  everything that is deterministic Python in the repository is
  translated directly.
-/

attribute [local semireducible] Rat.add Rat.mul Rat.sub Rat.inv Rat.ofScientific

/-! ## Exact model of Python `round` (banker's rounding) -/

/-- Powers of ten as rationals, used to scale `round(x, ndigits)`. -/
def pow10 : ℕ → ℚ
  | 0 => 1
  | n + 1 => pow10 n * 10

/-- Computable floor of a rational (`Int.fdiv` of numerator by denominator). -/
def ratFloor (x : ℚ) : ℤ := Int.fdiv x.num x.den

theorem ratFloor_eq_floor (x : ℚ) : ratFloor x = ⌊x⌋ := by
  rw [Rat.floor_def, ratFloor, Int.fdiv_eq_ediv _ (by positivity)]

/-- Round-half-to-even to an integer, the rounding mode of Python `round`. -/
def roundHalfEven (x : ℚ) : ℤ :=
  if x - ratFloor x < 1/2 then ratFloor x
  else if (1 : ℚ)/2 < x - ratFloor x then ratFloor x + 1
  else if ratFloor x % 2 = 0 then ratFloor x else ratFloor x + 1

/-- Python `round(x, d)` for a nonnegative digit count `d`, on exact rationals. -/
def pyRound (x : ℚ) (d : ℕ) : ℚ := (roundHalfEven (x * pow10 d) : ℤ) / pow10 d

theorem floor_le_roundHalfEven (x : ℚ) : ⌊x⌋ ≤ roundHalfEven x := by
  unfold roundHalfEven
  rw [ratFloor_eq_floor]
  split_ifs <;> omega

theorem roundHalfEven_le_floor_add_one (x : ℚ) : roundHalfEven x ≤ ⌊x⌋ + 1 := by
  unfold roundHalfEven
  rw [ratFloor_eq_floor]
  split_ifs <;> omega

theorem roundHalfEven_mono {x y : ℚ} (h : x ≤ y) : roundHalfEven x ≤ roundHalfEven y := by
  rcases lt_or_le (⌊x⌋) (⌊y⌋) with hf | hf
  · calc roundHalfEven x ≤ ⌊x⌋ + 1 := roundHalfEven_le_floor_add_one x
      _ ≤ ⌊y⌋ := by omega
      _ ≤ roundHalfEven y := floor_le_roundHalfEven y
  · have hfe : ⌊x⌋ = ⌊y⌋ := le_antisymm (Int.floor_le_floor h) hf
    unfold roundHalfEven
    rw [ratFloor_eq_floor, ratFloor_eq_floor, hfe]
    have hxy : x - ⌊y⌋ ≤ y - ⌊y⌋ := by linarith
    split_ifs <;> first | omega | linarith

theorem roundHalfEven_intCast (n : ℤ) : roundHalfEven (n : ℚ) = n := by
  unfold roundHalfEven
  rw [ratFloor_eq_floor, Int.floor_intCast]
  split_ifs with h1 h2 <;> simp_all

theorem pow10_pos (d : ℕ) : 0 < pow10 d := by
  induction d with
  | zero => norm_num [pow10]
  | succ n ih => rw [pow10]; positivity

theorem pyRound_mono {x y : ℚ} (d : ℕ) (h : x ≤ y) : pyRound x d ≤ pyRound y d := by
  unfold pyRound
  have hp := pow10_pos d
  have h1 : x * pow10 d ≤ y * pow10 d := by nlinarith
  have h2 := roundHalfEven_mono h1
  have h3 : ((roundHalfEven (x * pow10 d) : ℚ)) ≤ ((roundHalfEven (y * pow10 d) : ℚ)) := by
    exact_mod_cast h2
  exact div_le_div_of_nonneg_right h3 hp.le

theorem pyRound_of_int (n : ℤ) (d : ℕ) : pyRound ((n : ℚ) / pow10 d) d = (n : ℚ) / pow10 d := by
  unfold pyRound
  have hp := pow10_pos d
  rw [div_mul_cancel₀]
  · rw [roundHalfEven_intCast]
  · exact ne_of_gt hp

theorem pyRound_bounds {x lo hi : ℚ} {d : ℕ} (hlo : lo ≤ x) (hhi : x ≤ hi)
    (nlo nhi : ℤ) (helo : (nlo : ℚ) / pow10 d = lo) (hehi : (nhi : ℚ) / pow10 d = hi) :
    lo ≤ pyRound x d ∧ pyRound x d ≤ hi := by
  constructor
  · calc lo = pyRound lo d := by rw [← helo, pyRound_of_int]
      _ ≤ pyRound x d := pyRound_mono d hlo
  · calc pyRound x d ≤ pyRound hi d := pyRound_mono d hhi
      _ = hi := by rw [← hehi, pyRound_of_int]

/-! ## Python values and exceptions -/

/-- The Python exceptions thrown by the embedded code paths. -/
inductive PyErr where
  | typeError
  | zeroDivisionError
  | attributeError
  | keyError
  | runtimeError
deriving DecidableEq, Repr

/-- JSON / Python-dict values.  Python `int` and `float` are both `num`
(Python compares them with `==` across the two types, and no embedded
claim distinguishes them); objects are insertion-ordered association
lists, as CPython dicts are. -/
inductive Json where
  | null
  | bool (b : Bool)
  | num (q : ℚ)
  | str (s : String)
  | arr (xs : List Json)
  | obj (kvs : List (String × Json))

/-- Lookup in a Python dict (`d[k]` / `d.get(k)`): first (unique) binding. -/
def dictGet (kvs : List (String × Json)) (k : String) : Option Json :=
  match kvs with
  | [] => none
  | (k', v) :: rest => if k' = k then some v else dictGet rest k

/-- Python `k in d` for a dict. -/
def dictContains (kvs : List (String × Json)) (k : String) : Bool :=
  (dictGet kvs k).isSome

/-- Python `d[k] = v`: replace in place when the key exists (its position
is kept), otherwise append the new binding at the end. -/
def dictSet (kvs : List (String × Json)) (k : String) (v : Json) : List (String × Json) :=
  match kvs with
  | [] => [(k, v)]
  | (k', v') :: rest => if k' = k then (k', v) :: rest else (k', v') :: dictSet rest k v

@[simp] theorem dictGet_dictSet_self (kvs : List (String × Json)) (k : String) (v : Json) :
    dictGet (dictSet kvs k v) k = some v := by
  induction kvs with
  | nil => simp [dictGet, dictSet]
  | cons hd tl ih =>
    obtain ⟨k', v'⟩ := hd
    by_cases h : k' = k <;> simp [dictGet, dictSet, h, ih]

theorem dictGet_dictSet_ne (kvs : List (String × Json)) {k k' : String} (v : Json)
    (h : k ≠ k') : dictGet (dictSet kvs k v) k' = dictGet kvs k' := by
  induction kvs with
  | nil => simp [dictGet, dictSet, h]
  | cons hd tl ih =>
    obtain ⟨k0, v0⟩ := hd
    by_cases h0 : k0 = k
    · subst h0
      simp [dictGet, dictSet, h]
    · simp only [dictSet, if_neg h0, dictGet]
      by_cases h1 : k0 = k' <;> simp [h1, ih]

theorem dictSet_same {kvs : List (String × Json)} {k : String} {v : Json}
    (h : dictGet kvs k = some v) : dictSet kvs k v = kvs := by
  induction kvs with
  | nil => simp [dictGet] at h
  | cons hd tl ih =>
    obtain ⟨k', v'⟩ := hd
    by_cases h0 : k' = k
    · subst h0
      simp only [dictGet, if_true, eq_self_iff_true, Option.some.injEq] at h
      subst h
      simp [dictSet]
    · simp only [dictGet, if_neg h0] at h
      simp [dictSet, h0, ih h]

theorem dictContains_dictSet (kvs : List (String × Json)) (k k' : String) (v : Json) :
    dictContains (dictSet kvs k v) k' = (k' = k || dictContains kvs k') := by
  by_cases h : k' = k
  · subst h
    simp [dictContains]
  · have := dictGet_dictSet_ne kvs v (fun he => h he.symm)
    simp [dictContains, this, h]

theorem dictGet_mem {kvs : List (String × Json)} {k : String} {v : Json}
    (h : dictGet kvs k = some v) : (k, v) ∈ kvs := by
  induction kvs with
  | nil => simp [dictGet] at h
  | cons hd tl ih =>
    obtain ⟨k', v'⟩ := hd
    by_cases h0 : k' = k
    · subst h0
      simp only [dictGet, if_true, eq_self_iff_true, Option.some.injEq] at h
      subst h
      exact List.mem_cons_self _ _
    · simp only [dictGet, if_neg h0] at h
      exact List.mem_cons_of_mem _ (ih h)

theorem mem_dictSet {kvs : List (String × Json)} {k k' : String} {v v' : Json} :
    (k', v') ∈ dictSet kvs k v → (k', v') ∈ kvs ∨ (k' = k ∧ v' = v) := by
  induction kvs with
  | nil =>
    intro h
    simp only [dictSet, List.mem_singleton, Prod.mk.injEq] at h
    exact Or.inr h
  | cons hd tl ih =>
    intro h
    obtain ⟨k0, v0⟩ := hd
    by_cases h0 : k0 = k
    · subst h0
      simp only [dictSet, if_true, eq_self_iff_true] at h
      rcases List.mem_cons.mp h with h1 | h1
      · rw [Prod.mk.injEq] at h1
        exact Or.inr h1
      · exact Or.inl (List.mem_cons_of_mem _ h1)
    · simp only [dictSet, if_neg h0, List.mem_cons] at h
      rcases h with h | h
      · exact Or.inl (by simp [h])
      · rcases ih h with h1 | h1
        · exact Or.inl (List.mem_cons_of_mem _ h1)
        · exact Or.inr h1

/-- Python truthiness (`bool(x)`): empty containers, empty strings, zero
and `None` are falsy. -/
def pyTruthy : Json → Bool
  | .null => false
  | .bool b => b
  | .num q => decide (q ≠ 0)
  | .str s => decide (s ≠ "")
  | .arr [] => false
  | .arr (_ :: _) => true
  | .obj [] => false
  | .obj (_ :: _) => true

/-- Numeric value of a Python object for arithmetic contexts (`sum`, `+`):
numbers and bools are numeric (True == 1, False == 0), everything else
raises `TypeError`. -/
def pyNumVal : Json → Except PyErr ℚ
  | .num q => .ok q
  | .bool b => .ok (if b then 1 else 0)
  | _ => .error .typeError

/-- Python `sum(d.values())` over the values of an association list. -/
def sumValues (kvs : List (String × Json)) : Except PyErr ℚ :=
  kvs.foldlM (fun acc kv => do
    let q ← pyNumVal kv.2
    pure (acc + q)) 0

/-! ## Character and string helpers (Python string operations) -/

/-- Whitespace for Python `str.strip`. -/
def isPyWs (c : Char) : Bool :=
  c = ' ' || c = '\t' || c = '\n' || c = '\r' || c = '\x0b' || c = '\x0c'

/-- Does the second list start with the first? -/
def startsWithL : List Char → List Char → Bool
  | [], _ => true
  | _ :: _, [] => false
  | a :: as, b :: bs => a = b && startsWithL as bs

/-- Substring containment on character lists. -/
def hasSubL (needle : List Char) : List Char → Bool
  | [] => startsWithL needle []
  | c :: cs => startsWithL needle (c :: cs) || hasSubL needle cs

/-- Python `needle in hay` for strings. -/
def strIn (needle hay : String) : Bool := hasSubL needle.data hay.data

/-- Characters after the first occurrence of `sep` (`hay.split(sep)[1]`,
joined back with `sep`, i.e. everything past the first separator). -/
def afterFirstL (sep : List Char) : List Char → Option (List Char)
  | [] => none
  | c :: cs =>
    if startsWithL sep (c :: cs) then some ((c :: cs).drop sep.length)
    else afterFirstL sep cs

/-- Characters before the first occurrence of `sep` (`hay.split(sep)[0]`);
the whole list when `sep` does not occur. -/
def beforeFirstL (sep : List Char) : List Char → List Char
  | [] => []
  | c :: cs =>
    if startsWithL sep (c :: cs) then []
    else c :: beforeFirstL sep cs

/-- Characters after the last occurrence of `sep` (`hay.split(sep)[-1]`);
the whole list when `sep` does not occur. -/
def afterLastL (sep l : List Char) : List Char :=
  (beforeFirstL sep.reverse l.reverse).reverse

/-- Python `str.strip()`. -/
def stripL (l : List Char) : List Char :=
  ((l.dropWhile isPyWs).reverse.dropWhile isPyWs).reverse

/-- Python `str.lower()` (ASCII case folding, which covers every string
the embedded code manipulates). -/
def lowerL (l : List Char) : List Char := l.map Char.toLower

/-- A regex `\w` word character: alphanumeric or underscore (the inputs in
scope are ASCII). -/
def isWordChar (c : Char) : Bool := c.isAlphanum || c = '_'

/-- Maximal runs of word characters: `re.findall(r'\w+', s)`.  The first
argument accumulates the current run in reverse. -/
def tokenizeAux : List Char → List Char → List String
  | acc, [] => if acc.isEmpty then [] else [⟨acc.reverse⟩]
  | acc, c :: cs =>
    if isWordChar c then tokenizeAux (c :: acc) cs
    else if acc.isEmpty then tokenizeAux [] cs
    else ⟨acc.reverse⟩ :: tokenizeAux [] cs

def tokenizeL (l : List Char) : List String := tokenizeAux [] l

/-- Deduplicate keeping first occurrences: the word list underlying a
Python `set` of tokens (only cardinalities and membership are used, so
the retained order is irrelevant to every result). -/
def mkSetAux : List String → List String → List String
  | acc, [] => acc.reverse
  | acc, s :: rest => if s ∈ acc then mkSetAux acc rest else mkSetAux (s :: acc) rest

def mkSet (l : List String) : List String := mkSetAux [] l

/-! ## Structural JSON parser (model of `json.loads`)

Faithful to the default `json.loads` grammar: objects, arrays, strings
with escapes, numbers (as exact rationals), `true`/`false`/`null`,
strict rejection of raw control characters in strings, duplicate object
keys resolved last-wins, trailing non-whitespace rejected.  The
`NaN`/`Infinity` extensions are omitted: no generated text in scope uses
them, and every use site only distinguishes success from failure. -/

def isJsonWs (c : Char) : Bool := c = ' ' || c = '\t' || c = '\n' || c = '\r'

def skipWs (l : List Char) : List Char := l.dropWhile isJsonWs

def isDigitCh (c : Char) : Bool := '0' ≤ c && c ≤ '9'

def digitsToNat (l : List Char) : ℕ :=
  l.foldl (fun n c => n * 10 + (c.toNat - '0'.toNat)) 0

def hexVal (c : Char) : Option ℕ :=
  let n := c.toNat
  if 48 ≤ n ∧ n ≤ 57 then some (n - 48)
  else if 97 ≤ n ∧ n ≤ 102 then some (n - 87)
  else if 65 ≤ n ∧ n ≤ 70 then some (n - 55)
  else none

/-- Parse the body of a JSON string (after the opening quote), according
to `json.loads` in strict mode. -/
def parseStringAux : List Char → List Char → Option (String × List Char)
  | _, [] => none
  | acc, c :: cs =>
    if c = '\x22' then some (⟨acc.reverse⟩, cs)
    else if c = '\\' then
      match cs with
      | [] => none
      | e :: cs2 =>
        if e = '\x22' then parseStringAux ('\x22' :: acc) cs2
        else if e = '\\' then parseStringAux ('\\' :: acc) cs2
        else if e = '/' then parseStringAux ('/' :: acc) cs2
        else if e = 'b' then parseStringAux ('\x08' :: acc) cs2
        else if e = 'f' then parseStringAux ('\x0c' :: acc) cs2
        else if e = 'n' then parseStringAux ('\n' :: acc) cs2
        else if e = 'r' then parseStringAux ('\r' :: acc) cs2
        else if e = 't' then parseStringAux ('\t' :: acc) cs2
        else if e = 'u' then
          match cs2 with
          | h1 :: h2 :: h3 :: h4 :: cs3 =>
            match hexVal h1, hexVal h2, hexVal h3, hexVal h4 with
            | some a, some b, some c', some d =>
              parseStringAux (Char.ofNat (((a * 16 + b) * 16 + c') * 16 + d) :: acc) cs3
            | _, _, _, _ => none
          | _ => none
        else none
    else if c.toNat < 32 then none
    else parseStringAux (c :: acc) cs

/-- Shift a rational by a (possibly negative) power of ten. -/
def qShift (q : ℚ) (e : ℤ) : ℚ :=
  if 0 ≤ e then q * ((10 ^ e.toNat : ℕ) : ℚ) else q * mkRat 1 (10 ^ (-e).toNat)

/-- Parse a JSON number: `-?(0|[1-9][0-9]*)(\.[0-9]+)?([eE][+-]?[0-9]+)?`.
The fractional / exponent parts are consumed only when complete, exactly
as the scanner regex matches. -/
def parseNumber (l : List Char) : Option (Json × List Char) :=
  let signed : Bool × List Char :=
    match l with
    | '-' :: rest => (true, rest)
    | _ => (false, l)
  match signed with
  | (neg, l1) =>
    match l1 with
    | [] => none
    | c :: rest =>
      if ¬ isDigitCh c then none
      else
        let ipRest : List Char × List Char :=
          if c = '0' then ([c], rest)
          else ((c :: rest).takeWhile isDigitCh, (c :: rest).dropWhile isDigitCh)
        match ipRest with
        | (ip, l2) =>
          let fracRest : List Char × List Char :=
            match l2 with
            | '.' :: r2 =>
              if (r2.takeWhile isDigitCh).isEmpty then ([], l2)
              else (r2.takeWhile isDigitCh, r2.dropWhile isDigitCh)
            | _ => ([], l2)
          match fracRest with
          | (fs, l3) =>
            let expRest : ℤ × List Char :=
              match l3 with
              | e :: r3 =>
                if e = 'e' ∨ e = 'E' then
                  match r3 with
                  | '+' :: r4 =>
                    if (r4.takeWhile isDigitCh).isEmpty then (0, l3)
                    else ((digitsToNat (r4.takeWhile isDigitCh) : ℤ), r4.dropWhile isDigitCh)
                  | '-' :: r4 =>
                    if (r4.takeWhile isDigitCh).isEmpty then (0, l3)
                    else (-(digitsToNat (r4.takeWhile isDigitCh) : ℤ), r4.dropWhile isDigitCh)
                  | r4 =>
                    if (r4.takeWhile isDigitCh).isEmpty then (0, l3)
                    else ((digitsToNat (r4.takeWhile isDigitCh) : ℤ), r4.dropWhile isDigitCh)
                else (0, l3)
              | [] => (0, l3)
            match expRest with
            | (ex, l4) =>
              let mant : ℤ := ((digitsToNat ip * 10 ^ fs.length + digitsToNat fs : ℕ) : ℤ)
              let mant : ℤ := if neg then -mant else mant
              let q : ℚ := qShift (mkRat mant (10 ^ fs.length)) ex
              some (.num q, l4)

mutual

/-- Parse one JSON value, with explicit fuel (structurally recursive so
that concrete inputs evaluate inside the kernel). -/
def parseValue : ℕ → List Char → Option (Json × List Char)
  | 0, _ => none
  | fuel + 1, l =>
    match skipWs l with
    | [] => none
    | '\x7b' :: rest =>
      match skipWs rest with
      | '\x7d' :: rest2 => some (.obj [], rest2)
      | _ => parseMembers fuel rest []
    | '[' :: rest =>
      match skipWs rest with
      | ']' :: rest2 => some (.arr [], rest2)
      | _ => parseElements fuel rest []
    | '\x22' :: rest =>
      match parseStringAux [] rest with
      | some (s, rest2) => some (.str s, rest2)
      | none => none
    | 't' :: rest =>
      if startsWithL "rue".data rest then some (.bool true, rest.drop 3) else none
    | 'f' :: rest =>
      if startsWithL "alse".data rest then some (.bool false, rest.drop 4) else none
    | 'n' :: rest =>
      if startsWithL "ull".data rest then some (.null, rest.drop 3) else none
    | l' => parseNumber l'

/-- Parse the members of an object, positioned after `\x7b` or `,`;
duplicate keys overwrite in place (CPython dict building). -/
def parseMembers : ℕ → List Char → List (String × Json) → Option (Json × List Char)
  | 0, _, _ => none
  | fuel + 1, l, acc =>
    match skipWs l with
    | '\x22' :: rest =>
      match parseStringAux [] rest with
      | none => none
      | some (k, rest2) =>
        match skipWs rest2 with
        | ':' :: rest3 =>
          match parseValue fuel rest3 with
          | none => none
          | some (v, rest4) =>
            match skipWs rest4 with
            | ',' :: rest5 => parseMembers fuel rest5 (dictSet acc k v)
            | '\x7d' :: rest5 => some (.obj (dictSet acc k v), rest5)
            | _ => none
        | _ => none
    | _ => none

/-- Parse the elements of an array, positioned after `[` or `,`. -/
def parseElements : ℕ → List Char → List Json → Option (Json × List Char)
  | 0, _, _ => none
  | fuel + 1, l, acc =>
    match parseValue fuel l with
    | none => none
    | some (v, rest) =>
      match skipWs rest with
      | ',' :: rest2 => parseElements fuel rest2 (acc ++ [v])
      | ']' :: rest2 => some (.arr (acc ++ [v]), rest2)
      | _ => none

end

/-- `json.loads`: parse a complete document, rejecting trailing data;
`none` models `json.JSONDecodeError` (caught at every call site). -/
def json_loads (l : List Char) : Option Json :=
  match parseValue (2 * l.length + 8) l with
  | some (v, rest) => if skipWs rest = [] then some v else none
  | none => none

/-! ## Python `str()` / float formatting

Number-to-text rendering feeds only the narrative fields of reports
(f-string interpolation in the heuristic scorer, `str()` on a non-list
`improvement_suggestions`); no claim inspects the rendered digits, so
an exact-decimal rendering of the rational stands in for CPython's
shortest-roundtrip float repr. -/

/-- Smallest number of decimal digits (up to 40) after which `q` scaled
by a power of ten is integral. -/
def decDigits (q : ℚ) : ℕ :=
  (((List.range 41).find? (fun k => (q * pow10 k).den = 1)).getD 40)

/-- Python `str()` of a float value: at least one digit on both sides of
the decimal point. -/
def fmtFloat (q : ℚ) : String :=
  let neg := decide (q < 0)
  let a := if q < 0 then -q else q
  let k := max 1 (decDigits a)
  let n := (a * pow10 k).num.toNat
  let ds := Nat.toDigits 10 n
  let ds := if ds.length ≤ k then List.replicate (k + 1 - ds.length) '0' ++ ds else ds
  (if neg then "-" else "") ++ String.mk (ds.take (ds.length - k)) ++ "." ++ String.mk (ds.drop (ds.length - k))

/-- Python number rendering inside `repr`: integers without a decimal
point, other values in float style. -/
def fmtNumRepr (q : ℚ) : String :=
  if q.den = 1 then (if q < 0 then "-" else "") ++ String.mk (Nat.toDigits 10 q.num.natAbs)
  else fmtFloat q

/-- Python `repr()` of a value, fuelled by nesting depth (far above any
value in scope; the rendered text feeds only narrative fields). -/
def pyReprFuel : ℕ → Json → String
  | 0, _ => ""
  | fuel + 1, v =>
    match v with
    | .null => "None"
    | .bool true => "True"
    | .bool false => "False"
    | .num q => fmtNumRepr q
    | .str s => "\x27" ++ s ++ "\x27"
    | .arr xs => "[" ++ String.intercalate ", " (xs.map (pyReprFuel fuel)) ++ "]"
    | .obj kvs =>
      "\x7b" ++ String.intercalate ", "
        (kvs.map (fun kv => "\x27" ++ kv.1 ++ "\x27: " ++ pyReprFuel fuel kv.2)) ++ "\x7d"

/-- Python `str()`: the identity on strings, `repr`-style otherwise. -/
def pyStrOf : Json → String
  | .str s => s
  | v => pyReprFuel 64 v

/-- Python `sep.join(xs)`: raises `TypeError` unless every element is a
string. -/
def pyJoin (sep : String) (xs : List Json) : Except PyErr String := do
  let strs ← xs.mapM (fun x => match x with
    | .str s => Except.ok s
    | _ => Except.error PyErr.typeError)
  return String.intercalate sep strs

/-- Python `x == y` across JSON-shaped values (numbers compare across
int/float/bool, containers element-wise), fuelled by nesting depth. -/
def pyEqFuel : ℕ → Json → Json → Bool
  | 0, _, _ => false
  | fuel + 1, a, b =>
    match a, b with
    | .null, .null => true
    | .bool x, .bool y => x = y
    | .bool x, .num q => decide ((if x then (1 : ℚ) else 0) = q)
    | .num q, .bool y => decide (q = (if y then (1 : ℚ) else 0))
    | .num x, .num y => decide (x = y)
    | .str x, .str y => x = y
    | .arr xs, .arr ys =>
      xs.length = ys.length && (xs.zip ys).all (fun p => pyEqFuel fuel p.1 p.2)
    | .obj xs, .obj ys =>
      xs.length = ys.length && xs.all (fun kv =>
        match dictGet ys kv.1 with
        | some v => pyEqFuel fuel kv.2 v
        | none => false)
    | _, _ => false

def pyEq (a b : Json) : Bool := pyEqFuel 4096 a b

/-- Python `needle in container`: key membership for dicts, `==`
membership for lists, substring for strings; `TypeError` otherwise. -/
def pyContains (needle container : Json) : Except PyErr Bool :=
  match container with
  | .obj kvs => .ok (kvs.any (fun kv => pyEq needle (.str kv.1)))
  | .arr xs => .ok (xs.any (fun x => pyEq needle x))
  | .str s =>
    match needle with
    | .str n => .ok (strIn n s)
    | _ => .error .typeError
  | _ => .error .typeError

/-! ## config.py -/

def Config.SCORE_CATEGORIES : List String :=
  ["relevance", "clarity", "technical_accuracy", "structure", "completeness"]

def Config.MIN_SCORE : ℚ := 0

def Config.MAX_SCORE : ℚ := 10

/-! ## The Generative-Output Parser (`extract_json_from_text`)

There are two variants in the repository: `llm_evaluator.py` (greedy
brace span, then the whole text) and `gemini_evaluator.py` (greedy brace
span, then the fenced-block interior when fence markers are present,
otherwise the whole text). -/

/-- The match of `re.search(r'\x7b.*\x7d', text, re.DOTALL)`: from the first
opening brace that precedes the last closing brace, through that last
closing brace. -/
def firstIdxOf (c : Char) : List Char → Option ℕ
  | [] => none
  | x :: xs => if x = c then some 0 else (firstIdxOf c xs).map (· + 1)

def lastIdxOf (c : Char) (l : List Char) : Option ℕ :=
  (firstIdxOf c l.reverse).map (fun i => l.length - 1 - i)

def spanMatch (text : List Char) : Option (List Char) :=
  match lastIdxOf '\x7d' text, firstIdxOf '\x7b' text with
  | some j, some i => if i < j then some ((text.drop i).take (j - i + 1)) else none
  | _, _ => none

/-- `LLMEvaluator.extract_json_from_text`: greedy brace span first; on
no match or parse failure, attempt the entire text; `none` models the
`return None` path. -/
def LLMEvaluator.extract_json_from_text (text : List Char) : Option Json :=
  match spanMatch text with
  | some json_str =>
    match json_loads json_str with
    | some j => some j
    | none => json_loads text
  | none => json_loads text

/-- The fence-handling tail of `GeminiEvaluator.extract_json_from_text`:
when "```json" (or else "```") occurs, the text is replaced by the
stripped interior of the first fenced block before the final parse, so
the raw text itself is no longer attempted. -/
def GeminiEvaluator.fenceFallback (text : List Char) : Option Json :=
  if hasSubL "```json".data text then
    json_loads (stripL (beforeFirstL "```".data ((afterFirstL "```json".data text).getD [])))
  else if hasSubL "```".data text then
    json_loads (stripL (beforeFirstL "```".data ((afterFirstL "```".data text).getD [])))
  else json_loads text

/-- `GeminiEvaluator.extract_json_from_text`: greedy brace span first,
then the fence fallback. -/
def GeminiEvaluator.extract_json_from_text (text : List Char) : Option Json :=
  match spanMatch text with
  | some json_str =>
    match json_loads json_str with
    | some j => some j
    | none => GeminiEvaluator.fenceFallback text
  | none => GeminiEvaluator.fenceFallback text

/-! ## Schema Validator/Repairer (`LLMEvaluator.validate_and_fix_response`) -/

/-- One provided score is clamped with
`max(Config.MIN_SCORE, min(Config.MAX_SCORE, v))`.  Python `min`/`max`
return one of their arguments, so a `True` (== 1) survives as `True`
while a `False` loses the tie against the int `0`; comparing a
non-number with an int raises `TypeError`. -/
def clampScore : Json → Except PyErr Json
  | .num q => .ok (.num (max Config.MIN_SCORE (min Config.MAX_SCORE q)))
  | .bool b => .ok (if b then .bool true else .num 0)
  | _ => .error .typeError

/-- The body of the category loop: default an absent category to the
neutral 5, clamp a present one. -/
def fixCategory (scores : List (String × Json)) (category : String) :
    Except PyErr (List (String × Json)) :=
  match dictGet scores category with
  | none => .ok (dictSet scores category (.num 5))
  | some v => do
    let v' ← clampScore v
    .ok (dictSet scores category v')

def fixCategories (scores : List (String × Json)) : Except PyErr (List (String × Json)) :=
  Config.SCORE_CATEGORIES.foldlM fixCategory scores

/-- The `detailed_analysis` repair: when the entry is missing or not a
dict, synthesize one from `improvement_suggestions` (joined into one
sentence — `TypeError` if it is a list holding a non-string) together
with fixed placeholder text. -/
def joinSuggestions : Json → Except PyErr String
  | .arr xs => pyJoin " " xs
  | other => .ok (pyStrOf other)

def synthesizeDA (r3 : List (String × Json)) : Except PyErr (List (String × Json)) :=
  match dictGet r3 "detailed_analysis" with
  | some (.obj _) => .ok r3
  | _ =>
    match joinSuggestions ((dictGet r3 "improvement_suggestions").getD
        (.arr [.str "Analysis is brief."])) with
    | .error e => .error e
    | .ok combined_suggestions =>
      .ok (dictSet r3 "detailed_analysis" (.obj [
        ("technical_depth", .str ("Technical review pending. " ++ combined_suggestions)),
        ("business_viability", .str "Market impact analysis required."),
        ("presentation_flow", .str "Structure needs further evaluation.")]))

/-- The `summary_evaluation` repair: replace a missing or falsy entry by
the fixed placeholder. -/
def ensureSummary (r4 : List (String × Json)) : List (String × Json) :=
  match dictGet r4 "summary_evaluation" with
  | some v =>
    if pyTruthy v then r4
    else dictSet r4 "summary_evaluation" (.str "Evaluation completed.")
  | none => dictSet r4 "summary_evaluation" (.str "Evaluation completed.")

/-- `LLMEvaluator.validate_and_fix_response`.  A non-dict argument
raises `TypeError` at its first dict operation (`"scores" not in
response` / item assignment), as does a non-dict `scores` entry at the
first category assignment or subscript.  The final `none` branch is
unreachable: after the first step the `scores` key is always present. -/
def LLMEvaluator.validate_and_fix_response (response : Json) : Except PyErr Json :=
  match response with
  | .obj r0 =>
    let r1 := if dictContains r0 "scores" then r0 else dictSet r0 "scores" (.obj [])
    match dictGet r1 "scores" with
    | some (.obj scores0) =>
      match fixCategories scores0 with
      | .error e => .error e
      | .ok scores1 =>
        let r2 := dictSet r1 "scores" (.obj scores1)
        match sumValues scores1 with
        | .error e => .error e
        | .ok overall =>
          let r3 := dictSet r2 "overall_score" (.num overall)
          match synthesizeDA r3 with
          | .error e => .error e
          | .ok r4 => .ok (.obj (ensureSummary r4))
    | some _ => .error .typeError
    | none => .error .typeError
  | _ => .error .typeError

/-! ## Heuristic Fallback Scorer (`LLMEvaluator.generate_heuristic_evaluation`)

Each Python local is a named definition over `summary_lower` (the
lower-cased summary) and the problem statement; keyword detection is
substring containment, exactly as `kw in summary_lower` is. -/

def tech_keywords : List String :=
  ["python", "javascript", "react", "node", "aws", "firebase", "docker", "kubernetes",
   "api", "database", "sql", "nosql", "mongodb", "ai", "ml", "llm", "blockchain",
   "smart contract", "flutter", "swift", "tensorflow", "pytorch", "backend", "frontend"]

def biz_keywords : List String :=
  ["market", "revenue", "business model", "subscription", "b2b", "b2c", "saas",
   "competitor", "user acquisition", "growth", "scale", "monetization", "cost"]

def mvp_keywords : List String :=
  ["demo", "prototype", "mvp", "live", "screenshot", "walkthrough", "architecture",
   "flowchart", "github", "repo", "implementation"]

def structural_markers : List String :=
  ["problem", "solution", "tech", "demo", "business", "team", "ask"]

def stop_words : List String := ["the", "a", "an", "to", "of"]

def detected_tech (summary_lower : List Char) : List String :=
  tech_keywords.filter (fun t => hasSubL t.data summary_lower)

def has_tech_depth (summary_lower : List Char) : Bool :=
  decide ((detected_tech summary_lower).length ≥ 3)

def has_biz_plan (summary_lower : List Char) : Bool :=
  biz_keywords.any (fun k => hasSubL k.data summary_lower)

def has_mvp (summary_lower : List Char) : Bool :=
  mvp_keywords.any (fun k => hasSubL k.data summary_lower)

/-- `set(re.findall(r'\w+', problem_statement.lower())) - set(stop words)`. -/
def problem_words (problem_statement : String) : List String :=
  (mkSet (tokenizeL (lowerL problem_statement.data))).filter
    (fun w => ¬ stop_words.contains w)

def summary_words (summary_lower : List Char) : List String :=
  mkSet (tokenizeL summary_lower)

/-- `len(set(problem_words).intersection(summary_words))`. -/
def wordOverlap (problem_statement : String) (summary_lower : List Char) : ℕ :=
  ((problem_words problem_statement).filter
    (fun w => (summary_words summary_lower).contains w)).length

/-- `min(9.5, max(4.0, overlap / len(problem_words) * 10 * 1.5))`; the
division raises `ZeroDivisionError` when no problem word survives the
stop-word removal. -/
def relevance_score (problem_statement : String) (summary_lower : List Char) :
    Except PyErr ℚ :=
  let pw := problem_words problem_statement
  if pw.length = 0 then .error .zeroDivisionError
  else .ok (min 9.5 (max 4.0
    ((wordOverlap problem_statement summary_lower : ℚ) / (pw.length : ℚ) * 10 * 1.5)))

def tech_score (summary_lower : List Char) : ℚ :=
  let base : ℚ := if has_tech_depth summary_lower then 8.5 else 5.0
  if hasSubL "wrapper".data summary_lower || hasSubL "simple".data summary_lower then
    base - 1.0
  else base

def completeness_score (summary_lower : List Char) : ℚ :=
  if has_mvp summary_lower then 8.0 else 4.0

def structure_count (summary_lower : List Char) : ℕ :=
  (structural_markers.filter (fun w => hasSubL w.data summary_lower)).length

def structure_score (summary_lower : List Char) : ℚ :=
  min 9.0 (4.0 + (structure_count summary_lower : ℚ))

def clarity_score : ℚ := 7.5

/-- The `scores` dict of the heuristic evaluation, every entry rounded
to one decimal. -/
def heuristic_scores (problem_statement : String) (summary_lower : List Char) :
    Except PyErr (List (String × Json)) := do
  let rel ← relevance_score problem_statement summary_lower
  return [("relevance", .num (pyRound rel 1)),
          ("clarity", .num (pyRound clarity_score 1)),
          ("technical_accuracy", .num (pyRound (tech_score summary_lower) 1)),
          ("structure", .num (pyRound (structure_score summary_lower) 1)),
          ("completeness", .num (pyRound (completeness_score summary_lower) 1))]

def heuristic_overall (problem_statement : String) (summary_lower : List Char) :
    Except PyErr ℚ := do
  let rel ← relevance_score problem_statement summary_lower
  return pyRound rel 1 + pyRound clarity_score 1 + pyRound (tech_score summary_lower) 1
    + pyRound (structure_score summary_lower) 1 + pyRound (completeness_score summary_lower) 1

def heuristic_strengths (summary_lower : List Char) (rel : ℚ) : List Json :=
  [.str (if has_tech_depth summary_lower then
      "Impressive technical depth detected (" ++
        String.intercalate ", " ((detected_tech summary_lower).take 3) ++
        "). The engineering effort appears strictly robust and goes beyond a simple UI wrapper."
    else
      "The project targets a clear problem space, and the initial concept shows potential for a viable hackathon entry if technical details are fleshed out."),
   .str (if has_biz_plan summary_lower then
      "Strong business viability signals. You\x27ve clearly thought about market fit and monetization, which sets you apart from pure engineering projects."
    else
      "The narrative follows a logical problem-solution cadence, making the core value proposition easy for judges to understand quickly."),
   .str (if rel > 7 then
      "Direct hit on the problem statement. The solution aligns perfectly with the competition track and addresses a significant pain point."
    else
      "The slide deck is visually structured to guide the audience, ensuring that the key \x27Ask\x27 or conclusion is not lost in the details.")]

def heuristic_weaknesses (summary_lower : List Char) : List Json :=
  [.str (if ¬ has_tech_depth summary_lower then
      "CRITICAL: Lack of deep technical details. Judges need to see architecture diagrams, API specs, or code snippets, not just high-level concepts. What is the stack?"
    else
      "The connection between the complex tech stack and the user value proposition could be sharper. Don\x27t just list tools; explain *why* they were chosen."),
   .str (if ¬ has_mvp summary_lower then
      "MAJOR RED FLAG: No clear evidence of a functional MVP or Demo. Hackathons are about *building*, not just pitching ideas. Where is the prototype?"
    else
      "The current MVP feature set seems ambitious. Ensure you can actually demo the core \x27Happy Path\x27 live without smoking mirrors."),
   .str (if ¬ has_biz_plan summary_lower then
      "Missing commercial viability. Even for non-profits, you need a sustainability model. Who pays? How do you scale? The \x27Business\x27 slide seems missing."
    else
      "The competitive analysis feels light. You need to explicitly state why you are 10x better than existing solution X or Y.")]

def heuristic_detailed_analysis (summary_lower : List Char) : Json :=
  .obj [
    ("technical_depth", .str (
      "The proposed solution " ++
      (if has_tech_depth summary_lower then "demonstrates a strong engineering foundation"
       else "lacks sufficient technical specificity") ++ ". " ++
      (if ¬ (detected_tech summary_lower).isEmpty then
        "The stack includes " ++ String.intercalate ", " (detected_tech summary_lower) ++ "."
       else "No clear tech stack was identified.") ++ " Architecture validation required.")),
    ("business_viability", .str (
      (if has_biz_plan summary_lower then "A clear business model was detected"
       else "Commercial viability is unclear") ++ ". The presentation " ++
      (if has_biz_plan summary_lower then "addresses" else "fails to address") ++
      " market fit and revenue streams adequately for a venture-backed track.")),
    ("presentation_flow", .str (
      "The narrative structure scores " ++ fmtFloat (structure_score summary_lower) ++
      "/10. It " ++
      (if structure_score summary_lower > 7 then "successfully" else "partially") ++
      " follows standard pitch deck conventions (Problem->Solution->Tech->Biz). Visual clarity baseline estimated at " ++
      fmtFloat clarity_score ++ "/10."))]

def heuristic_verdict (overall : ℚ) : String :=
  if overall > 40 then "FUNDABLE" else if overall > 30 then "PROMISING" else "NEEDS WORK"

def heuristic_summary_eval (summary_lower : List Char) (overall : ℚ) : String :=
  "JUDGE\x27S VERDICT: " ++ heuristic_verdict overall ++ " (Score: " ++ fmtFloat overall ++
  "/50). " ++
  (if has_tech_depth summary_lower && has_mvp summary_lower then "This entry has strong winning potential"
   else "This entry has a good concept but lacks execution proof") ++ ". " ++
  (if has_tech_depth summary_lower then "The technical implementation is the standout feature."
   else "You need to prove this is more than just a slide deck.") ++ " " ++
  "Focus entirely on polishing the " ++
  (if ¬ has_mvp summary_lower then "Demo" else "Business Case") ++ " for the final pitch."

/-- `LLMEvaluator.generate_heuristic_evaluation`: the deterministic
fallback evaluation.  The only failing operation is the relevance
division; all flags and narrative text are total. -/
def LLMEvaluator.generate_heuristic_evaluation
    (problem_statement presentation_summary : String) : Except PyErr Json := do
  let summary_lower := lowerL presentation_summary.data
  let rel ← relevance_score problem_statement summary_lower
  let scores ← heuristic_scores problem_statement summary_lower
  let overall ← heuristic_overall problem_statement summary_lower
  return .obj [
    ("scores", .obj scores),
    ("overall_score", .num overall),
    ("strengths", .arr (heuristic_strengths summary_lower rel)),
    ("weaknesses", .arr (heuristic_weaknesses summary_lower)),
    ("detailed_analysis", heuristic_detailed_analysis summary_lower),
    ("missing_elements", .arr [.str "Live Demo Link", .str "System Architecture Diagram",
      .str "Go-to-Market Strategy"]),
    ("summary_evaluation", .str (heuristic_summary_eval summary_lower overall))]

/-- `LLMEvaluator.get_default_evaluation`: wrapper over the heuristic. -/
def LLMEvaluator.get_default_evaluation
    (problem_statement presentation_summary : String) : Except PyErr Json :=
  LLMEvaluator.generate_heuristic_evaluation problem_statement presentation_summary

/-! ## Retry Controller (`LLMEvaluator.evaluate`)

Model loading, tokenisation and `model.generate` are external; `gen i`
is the decoded text of attempt `i` (or the exception the generation call
raised, which the `except` clause of the loop absorbs).  Everything after
decoding — the `[/INST]`/`Response:` postprocessing, parse, truthiness
check and validation — is translated directly; an exception inside an
attempt (including one raised by the validator) is caught and the next
attempt begins.  After the last attempt the heuristic fallback runs
outside any handler. -/

/-- The instruction-format postprocessing of the decoded generation:
keep what follows the last `[/INST]`, else the last `Response:`. -/
def responsePostprocess (response_text : List Char) : List Char :=
  if hasSubL "[/INST]".data response_text then
    stripL (afterLastL "[/INST]".data response_text)
  else if hasSubL "Response:".data response_text then
    stripL (afterLastL "Response:".data response_text)
  else response_text

def LLMEvaluator.evaluateAttempts (gen : ℕ → Except PyErr (List Char))
    (problem_statement presentation_summary : String) :
    ℕ → ℕ → Except PyErr Json
  | 0, _ =>
    LLMEvaluator.get_default_evaluation problem_statement presentation_summary
  | remaining + 1, i =>
    match gen i with
    | .error _ =>
      LLMEvaluator.evaluateAttempts gen problem_statement presentation_summary remaining (i + 1)
    | .ok decoded =>
      match LLMEvaluator.extract_json_from_text (responsePostprocess decoded) with
      | some evaluation =>
        if pyTruthy evaluation then
          match LLMEvaluator.validate_and_fix_response evaluation with
          | .ok fixed => .ok fixed
          | .error _ =>
            LLMEvaluator.evaluateAttempts gen problem_statement presentation_summary remaining (i + 1)
        else
          LLMEvaluator.evaluateAttempts gen problem_statement presentation_summary remaining (i + 1)
      | none =>
        LLMEvaluator.evaluateAttempts gen problem_statement presentation_summary remaining (i + 1)

/-- `LLMEvaluator.evaluate` with `max_retries` attempts. -/
def LLMEvaluator.evaluate (gen : ℕ → Except PyErr (List Char))
    (problem_statement presentation_summary : String) (max_retries : ℕ) :
    Except PyErr Json :=
  LLMEvaluator.evaluateAttempts gen problem_statement presentation_summary max_retries 0

/-! ## Score Combiner and Evaluation Orchestrator
(`EvaluationOrchestrator.evaluate_presentation`, the part after the
external collaborators return) -/

/-- `round(0.7 * original_relevance + 0.3 * semantic_score, 1)`. -/
def adjusted_relevance (original_relevance semantic_score : ℚ) : ℚ :=
  pyRound (0.7 * original_relevance + 0.3 * semantic_score) 1

/-- The combination step of `evaluate_presentation` (steps after
extraction, summarisation, semantic scoring and judgment return):
replace the relevance entry by the adjusted value, recompute
`overall_score` as the new sum, attach metadata and the summary. -/
def EvaluationOrchestrator.combine_results (llm_evaluation : Json)
    (semantic_score : ℚ) (slide_count : ℕ) (presentation_summary : String) :
    Except PyErr Json := do
  let .obj ev := llm_evaluation | throw .typeError
  let .some scoresJ := dictGet ev "scores" | throw .keyError
  let .obj scores := scoresJ | throw .typeError
  let .some relJ := dictGet scores "relevance" | throw .keyError
  let original_relevance ← pyNumVal relJ
  let adjusted := adjusted_relevance original_relevance semantic_score
  let scores2 := dictSet scores "relevance" (.num adjusted)
  let ev2 := dictSet ev "scores" (.obj scores2)
  let overall ← sumValues scores2
  let ev3 := dictSet ev2 "overall_score" (.num overall)
  let ev4 := dictSet ev3 "metadata" (.obj [
    ("slide_count", .num slide_count),
    ("semantic_relevance_score", .num semantic_score),
    ("llm_relevance_score", relJ),
    ("adjusted_relevance_score", .num adjusted)])
  return .obj (dictSet ev4 "presentation_summary" (.str presentation_summary))

/-! ## Structure Refinement Loop (`PPTReconstructor`) -/

/-- Model of `PPTReconstructor.create_ppt`.  The python-pptx rendering
is the out-of-scope template-filling operation; what is modelled is the
Python-level access discipline that decides whether the call raises
before saving: `structure.get("slides", [])` requires a dict (a list or
string has no `.get`, hence `AttributeError`), the result must be
iterable (`TypeError` otherwise), and each iterated element must be a
dict for `slide_data.get(...)` (iterating a string yields characters,
iterating a dict yields string keys — both without `.get`).  On success
the saved file's path is returned. -/
def PPTReconstructor.create_ppt (structureJ : Json) (filename : String) :
    Except PyErr String :=
  match structureJ with
  | .obj kvs =>
    match (dictGet kvs "slides").getD (.arr []) with
    | .arr items =>
      if items.all (fun s => match s with | .obj _ => true | _ => false) then
        .ok ("generated_ppts/" ++ filename)
      else .error .attributeError
    | .str s => if s = "" then .ok ("generated_ppts/" ++ filename) else .error .attributeError
    | .obj [] => .ok ("generated_ppts/" ++ filename)
    | .obj (_ :: _) => .error .attributeError
    | _ => .error .typeError
  | _ => .error .attributeError

/-- `PPTReconstructor.refine_structure`.  The prompt (current structure,
user instruction, summary) goes to the generation source, whose reply is
the oracle `response_text`; `fileHash` stands for Python's per-process
salted `hash(user_instruction[:20])` used only inside the output
filename.  The returned dict carries the structure and a file path that
is `None` exactly on the rejection path. -/
def PPTReconstructor.refine_structure (response_text : List Char)
    (current_structure : Json) (fileHash : String) : Except PyErr Json := do
  match GeminiEvaluator.extract_json_from_text response_text with
  | none => return .obj [("structure", current_structure), ("file_path", .null)]
  | some new_structure =>
    if ¬ pyTruthy new_structure then
      return .obj [("structure", current_structure), ("file_path", .null)]
    else do
      let hasSlides ← pyContains (.str "slides") new_structure
      if ¬ hasSlides then
        return .obj [("structure", current_structure), ("file_path", .null)]
      else do
        let file_path ← PPTReconstructor.create_ppt new_structure
          ("refined_" ++ fileHash ++ ".pptx")
        return .obj [("structure", new_structure), ("file_path", .str file_path)]

/-! ## Similarity scorer (`SemanticScorer.calculate_relevance_score`)

`load_model` (line 95) runs before the `try` block, so a loading failure
propagates; inside the `try`, encoding and cosine similarity are the
external embedding model, abstracted as the `similarity` oracle, and any
exception there is absorbed by the `except` clause returning the neutral
5.0. -/
def SemanticScorer.calculate_relevance_score (load_model : Except PyErr Unit)
    (similarity : Except PyErr ℚ) : Except PyErr ℚ := do
  let _ ← load_model
  match similarity with
  | .error _ => return 5.0
  | .ok sim =>
    let score := max 0 (min 10 (sim * 10))
    return pyRound score 2

/-! ## Generic lemmas about the embedded operations -/

@[simp] theorem exceptBind_ok {α β : Type} (a : α) (f : α → Except PyErr β) :
    ((Except.ok a : Except PyErr α) >>= f) = f a := rfl

@[simp] theorem exceptBind_error {α β : Type} (e : PyErr) (f : α → Except PyErr β) :
    ((Except.error e : Except PyErr α) >>= f) = .error e := rfl

@[simp] theorem exceptPure {α : Type} (a : α) :
    (pure a : Except PyErr α) = .ok a := rfl

theorem clampScore_num (q : ℚ) :
    clampScore (.num q) = .ok (.num (max 0 (min 10 q))) := rfl

theorem clamp_clamp (q : ℚ) : max 0 (min 10 (max 0 (min 10 q))) = max 0 (min 10 q) := by
  have h1 : (0 : ℚ) ≤ max 0 (min 10 q) := le_max_left _ _
  have h2 : max 0 (min 10 q) ≤ 10 := max_le (by norm_num) (min_le_left _ _)
  rw [min_eq_right h2, max_eq_right h1]

theorem clampScore_range {v v' : Json} (h : clampScore v = .ok v') :
    ∃ q : ℚ, (v' = .num q ∨ v' = .bool true) ∧ 0 ≤ q ∧ q ≤ 10 := by
  cases v with
  | num q =>
    rw [clampScore_num] at h
    cases h
    exact ⟨max 0 (min 10 q), Or.inl rfl, le_max_left _ _,
      max_le (by norm_num) (min_le_left _ _)⟩
  | bool b =>
    cases b with
    | true =>
      cases h
      exact ⟨1, Or.inr (by simp), by norm_num, by norm_num⟩
    | false =>
      cases h
      exact ⟨0, Or.inl (by simp), by norm_num, by norm_num⟩
  | null => cases h
  | str s => cases h
  | arr xs => cases h
  | obj kvs => cases h

theorem clampScore_idem {v v' : Json} (h : clampScore v = .ok v') :
    clampScore v' = .ok v' := by
  cases v with
  | num q =>
    rw [clampScore_num] at h
    cases h
    rw [clampScore_num, clamp_clamp]
  | bool b =>
    cases b with
    | true => cases h; simp [clampScore]
    | false =>
      cases h
      simp [clampScore]
      norm_num [Config.MIN_SCORE, Config.MAX_SCORE]
  | null => cases h
  | str s => cases h
  | arr xs => cases h
  | obj kvs => cases h

/-- A category is in repaired state: present, and a fixed point of the
clamp. -/
def catFixed (sc : List (String × Json)) (c : String) : Prop :=
  ∃ v, dictGet sc c = some v ∧ clampScore v = .ok v

theorem fixCategory_eq_set {sc sc' : List (String × Json)} {c : String}
    (h : fixCategory sc c = .ok sc') : ∃ w, sc' = dictSet sc c w := by
  unfold fixCategory at h
  split at h
  · cases h; exact ⟨_, rfl⟩
  · rename_i v hv
    cases hcl : clampScore v with
    | error e => simp [hcl] at h
    | ok w => simp [hcl] at h; exact ⟨w, h.symm⟩

theorem fixCategory_ok_catFixed {sc sc' : List (String × Json)} {c : String}
    (h : fixCategory sc c = .ok sc') : catFixed sc' c := by
  unfold fixCategory at h
  split at h
  · cases h
    exact ⟨.num 5, by simp, by rw [clampScore_num]; norm_num⟩
  · rename_i v hv
    cases hcl : clampScore v with
    | error e => simp [hcl] at h
    | ok w =>
      simp [hcl] at h
      subst h
      exact ⟨w, by simp, clampScore_idem hcl⟩

theorem catFixed_fixCategory {sc : List (String × Json)} {c : String}
    (hf : catFixed sc c) : fixCategory sc c = .ok sc := by
  obtain ⟨v, hget, hcl⟩ := hf
  unfold fixCategory
  rw [hget]
  show (do
    let v' ← clampScore v
    Except.ok (dictSet sc c v')) = .ok sc
  rw [hcl]
  simp [dictSet_same hget]

theorem fixCategory_preserves_catFixed {sc sc' : List (String × Json)} {c c' : String}
    (h : fixCategory sc c' = .ok sc') (hf : catFixed sc c) : catFixed sc' c := by
  by_cases he : c = c'
  · subst he
    exact fixCategory_ok_catFixed h
  · obtain ⟨w, rfl⟩ := fixCategory_eq_set h
    obtain ⟨v, hget, hcl⟩ := hf
    exact ⟨v, by rw [dictGet_dictSet_ne _ _ (fun hx => he hx.symm), hget], hcl⟩

theorem foldlM_fixCategory_preserves {cats : List String} :
    ∀ {sc sc' : List (String × Json)} {c : String},
    List.foldlM fixCategory sc cats = .ok sc' → catFixed sc c → catFixed sc' c := by
  induction cats with
  | nil =>
    intro sc sc' c h hf
    simp [List.foldlM] at h
    subst h
    exact hf
  | cons c0 rest ih =>
    intro sc sc' c h hf
    simp only [List.foldlM] at h
    cases hstep : fixCategory sc c0 with
    | error e => rw [hstep] at h; simp at h
    | ok s1 =>
      rw [hstep] at h
      simp at h
      exact ih h (fixCategory_preserves_catFixed hstep hf)

theorem foldlM_fixCategory_all_fixed {cats : List String} :
    ∀ {sc sc' : List (String × Json)},
    List.foldlM fixCategory sc cats = .ok sc' → ∀ c ∈ cats, catFixed sc' c := by
  induction cats with
  | nil => intro sc sc' _ c hc; cases hc
  | cons c0 rest ih =>
    intro sc sc' h c hc
    simp only [List.foldlM] at h
    cases hstep : fixCategory sc c0 with
    | error e => rw [hstep] at h; simp at h
    | ok s1 =>
      rw [hstep] at h
      simp at h
      rcases List.mem_cons.mp hc with rfl | hc'
      · exact foldlM_fixCategory_preserves h (fixCategory_ok_catFixed hstep)
      · exact ih h c hc'

theorem foldlM_fixCategory_of_all_fixed {cats : List String} :
    ∀ {sc : List (String × Json)},
    (∀ c ∈ cats, catFixed sc c) → List.foldlM fixCategory sc cats = .ok sc := by
  induction cats with
  | nil => intro sc _; simp [List.foldlM]
  | cons c0 rest ih =>
    intro sc hall
    simp only [List.foldlM]
    rw [catFixed_fixCategory (hall c0 (List.mem_cons_self _ _))]
    simp
    exact ih (fun c hc => hall c (List.mem_cons_of_mem _ hc))

theorem fixCategories_idem {sc sc' : List (String × Json)}
    (h : fixCategories sc = .ok sc') : fixCategories sc' = .ok sc' :=
  foldlM_fixCategory_of_all_fixed (foldlM_fixCategory_all_fixed h)

/-- Full behaviour of the per-category repair loop over a duplicate-free
category list and numeric-valued scores: it succeeds, keeps all values
numeric, defaults absent categories to 5, clamps present ones, and
leaves every other key untouched. -/
theorem fixCategories_spec :
    ∀ (cats : List String) (sc : List (String × Json)),
    (∀ kv ∈ sc, ∃ q : ℚ, kv.2 = Json.num q) → cats.Nodup →
    ∃ sc', List.foldlM fixCategory sc cats = .ok sc'
      ∧ (∀ kv ∈ sc', ∃ q : ℚ, kv.2 = Json.num q)
      ∧ (∀ c ∈ cats,
          (dictGet sc c = none → dictGet sc' c = some (.num 5))
          ∧ (∀ q : ℚ, dictGet sc c = some (.num q) →
              dictGet sc' c = some (.num (max 0 (min 10 q)))))
      ∧ (∀ k, k ∉ cats → dictGet sc' k = dictGet sc k) := by
  intro cats
  induction cats with
  | nil =>
    intro sc hnum _
    exact ⟨sc, by simp [List.foldlM], hnum, by simp, fun k _ => rfl⟩
  | cons c rest ih =>
    intro sc hnum hnd
    obtain ⟨hc_rest, hnd'⟩ := List.nodup_cons.mp hnd
    -- the head step, together with what it wrote
    obtain ⟨w, hstep, hwspec⟩ :
        ∃ w, fixCategory sc c = .ok (dictSet sc c w)
          ∧ ((dictGet sc c = none ∧ w = Json.num 5)
             ∨ (∃ q : ℚ, dictGet sc c = some (.num q)
                  ∧ w = Json.num (max 0 (min 10 q)))) := by
      cases hget : dictGet sc c with
      | none =>
        refine ⟨.num 5, ?_, Or.inl ⟨rfl, rfl⟩⟩
        unfold fixCategory
        rw [hget]
      | some v =>
        obtain ⟨q, hq⟩ := hnum (c, v) (dictGet_mem hget)
        simp only at hq
        subst hq
        refine ⟨.num (max 0 (min 10 q)), ?_, Or.inr ⟨q, rfl, rfl⟩⟩
        unfold fixCategory
        rw [hget]
        show (do
          let v' ← clampScore (Json.num q)
          Except.ok (dictSet sc c v')) = _
        rw [clampScore_num]
        simp
    have hw : ∃ q : ℚ, w = Json.num q := by
      rcases hwspec with ⟨_, hw⟩ | ⟨q, _, hw⟩
      · exact ⟨5, hw⟩
      · exact ⟨_, hw⟩
    have hnum1 : ∀ kv ∈ dictSet sc c w, ∃ q : ℚ, kv.2 = Json.num q := by
      intro kv hkv
      rcases mem_dictSet hkv with h1 | h1
      · exact hnum kv h1
      · obtain ⟨q, hq⟩ := hw
        exact ⟨q, by rw [h1.2, hq]⟩
    obtain ⟨sc', hfold, hnum', hcats, hother⟩ := ih (dictSet sc c w) hnum1 hnd'
    refine ⟨sc', ?_, hnum', ?_, ?_⟩
    · simp only [List.foldlM, hstep]
      simpa using hfold
    · intro c' hc'
      rcases List.mem_cons.mp hc' with rfl | hc'
      · -- the head category: its binding in sc' is what the head step wrote
        have hget' : dictGet sc' c' = some w := by
          rw [hother c' hc_rest]
          simp
        constructor
        · intro hnone
          rcases hwspec with ⟨_, hw5⟩ | ⟨q, hq, _⟩
          · rw [hget', hw5]
          · rw [hq] at hnone; cases hnone
        · intro q hq
          rcases hwspec with ⟨hn, _⟩ | ⟨q', hq', hwc⟩
          · rw [hn] at hq; cases hq
          · rw [hq'] at hq
            have : Json.num q' = Json.num q := Option.some.inj hq
            have hqq : q' = q := Json.num.inj this
            rw [hget', hwc, hqq]
      · -- a later category: the head step did not disturb its binding
        have hne : c ≠ c' := fun he => hc_rest (he ▸ hc')
        have htrans := @dictGet_dictSet_ne sc c c' w hne
        obtain ⟨himp1, himp2⟩ := hcats c' hc'
        exact ⟨fun hn => himp1 (by rw [htrans, hn]),
               fun q hq => himp2 q (by rw [htrans, hq])⟩
    · intro k hk
      have hk_rest : k ∉ rest := fun hx => hk (List.mem_cons_of_mem _ hx)
      have hkc : c ≠ k := fun he => hk (he ▸ List.mem_cons_self _ _)
      rw [hother k hk_rest, dictGet_dictSet_ne sc w hkc]

/-- `sum` succeeds on numeric values. -/
theorem sumValues_ok_of_num :
    ∀ (l : List (String × Json)), (∀ kv ∈ l, ∃ q : ℚ, kv.2 = Json.num q) →
    ∀ acc : ℚ, ∃ t : ℚ, (l.foldlM (fun acc kv => do
      let q ← pyNumVal kv.2
      pure (acc + q)) acc : Except PyErr ℚ) = .ok t := by
  intro l
  induction l with
  | nil => intro _ acc; exact ⟨acc, by simp [List.foldlM]⟩
  | cons kv rest ih =>
    intro hnum acc
    obtain ⟨q, hq⟩ := hnum kv (List.mem_cons_self _ _)
    obtain ⟨t, ht⟩ := ih (fun kv' h => hnum kv' (List.mem_cons_of_mem _ h)) (acc + q)
    refine ⟨t, ?_⟩
    simp only [List.foldlM, hq]
    show ((pyNumVal (Json.num q) >>= fun q' => pure (acc + q')) >>= _) = _
    simpa [pyNumVal] using ht

theorem sumValues_ok {l : List (String × Json)}
    (hnum : ∀ kv ∈ l, ∃ q : ℚ, kv.2 = Json.num q) : ∃ t : ℚ, sumValues l = .ok t :=
  sumValues_ok_of_num l hnum 0

/-- `join` succeeds on a list of strings. -/
theorem pyJoin_ok_of_strs {xs : List Json} (h : ∀ x ∈ xs, ∃ s, x = Json.str s) :
    ∃ t, pyJoin " " xs = .ok t := by
  suffices hs : ∃ strs, xs.mapM (fun x => match x with
      | .str s => (Except.ok s : Except PyErr String)
      | _ => Except.error PyErr.typeError) = .ok strs by
    obtain ⟨strs, hstrs⟩ := hs
    refine ⟨String.intercalate " " strs, ?_⟩
    unfold pyJoin
    rw [hstrs]
    rfl
  induction xs with
  | nil => exact ⟨[], rfl⟩
  | cons x rest ih =>
    obtain ⟨s, hx⟩ := h x (List.mem_cons_self _ _)
    obtain ⟨strs, hstrs⟩ := ih (fun y hy => h y (List.mem_cons_of_mem _ hy))
    subst hx
    refine ⟨s :: strs, ?_⟩
    rw [List.mapM_cons, hstrs]
    rfl

/-! ## Behaviour of the Schema Validator/Repairer -/

/-- The scores mapping of the untrusted input (empty when absent, which
matches the initialisation to an empty mapping). -/
def scoresIn (r : List (String × Json)) : List (String × Json) :=
  match dictGet r "scores" with
  | some (.obj sc) => sc
  | _ => []

/-- The `scores` entry, when present, is a mapping holding only numbers
(the shape under which the clamp and the sum are defined in Python). -/
def scoresNumeric (r : List (String × Json)) : Bool :=
  match dictGet r "scores" with
  | none => true
  | some (.obj sc) => sc.all (fun kv => match kv.2 with | .num _ => true | _ => false)
  | some _ => false

/-- A value that `" ".join` accepts when it is the suggestion list: any
non-list, or a list of strings. -/
def strListOnly : Json → Bool
  | .arr xs => xs.all (fun x => match x with | .str _ => true | _ => false)
  | _ => true

/-- When the `detailed_analysis` synthesis will run, the
`improvement_suggestions` it joins is a list of strings or a non-list
(the shapes under which the Python synthesis cannot raise). -/
def suggestionsSafe (r : List (String × Json)) : Bool :=
  match dictGet r "detailed_analysis" with
  | some (.obj _) => true
  | _ => strListOnly ((dictGet r "improvement_suggestions").getD
           (.arr [.str "Analysis is brief."]))

theorem synthesizeDA_ok_spec {r3 r4 : List (String × Json)}
    (h : synthesizeDA r3 = .ok r4) :
    (∃ da, dictGet r4 "detailed_analysis" = some (.obj da))
    ∧ ∀ k, k ≠ "detailed_analysis" → dictGet r4 k = dictGet r3 k := by
  unfold synthesizeDA at h
  split at h
  · rename_i da hda
    cases h
    exact ⟨⟨da, hda⟩, fun k _ => rfl⟩
  · split at h
    · cases h
    · cases h
      exact ⟨⟨_, dictGet_dictSet_self _ _ _⟩,
        fun k hk => dictGet_dictSet_ne _ _ (fun he => hk he.symm)⟩


theorem synthesizeDA_fixed {r : List (String × Json)} {da : List (String × Json)}
    (h : dictGet r "detailed_analysis" = some (.obj da)) : synthesizeDA r = .ok r := by
  unfold synthesizeDA
  rw [h]

theorem joinSuggestions_ok {v : Json} (h : strListOnly v = true) :
    ∃ t, joinSuggestions v = .ok t := by
  cases v with
  | arr xs =>
    refine pyJoin_ok_of_strs ?_
    intro x hx
    have hx' := List.all_eq_true.mp h x hx
    cases x with
    | str s => exact ⟨s, rfl⟩
    | null => simp at hx'
    | bool b => simp at hx'
    | num q => simp at hx'
    | arr ys => simp at hx'
    | obj kvs => simp at hx'
  | null => exact ⟨_, rfl⟩
  | bool b => exact ⟨_, rfl⟩
  | num q => exact ⟨_, rfl⟩
  | str s => exact ⟨_, rfl⟩
  | obj kvs => exact ⟨_, rfl⟩

/-- The synthesis succeeds under `suggestionsSafe`-shaped entries. -/
theorem synthesizeDA_ok {r3 : List (String × Json)}
    (hsafe : suggestionsSafe r3 = true) : ∃ r4, synthesizeDA r3 = .ok r4 := by
  unfold synthesizeDA
  split
  · exact ⟨r3, rfl⟩
  · rename_i hwild
    have hstr : strListOnly ((dictGet r3 "improvement_suggestions").getD
        (.arr [.str "Analysis is brief."])) = true := by
      unfold suggestionsSafe at hsafe
      cases hgetDA : dictGet r3 "detailed_analysis" with
      | none => rw [hgetDA] at hsafe; exact hsafe
      | some v =>
        cases v with
        | obj da => exact absurd hgetDA (by simpa using hwild da)
        | null => rw [hgetDA] at hsafe; exact hsafe
        | bool b => rw [hgetDA] at hsafe; exact hsafe
        | num q => rw [hgetDA] at hsafe; exact hsafe
        | str st => rw [hgetDA] at hsafe; exact hsafe
        | arr xs => rw [hgetDA] at hsafe; exact hsafe
    obtain ⟨t, ht⟩ := joinSuggestions_ok hstr
    rw [ht]
    exact ⟨_, rfl⟩

theorem ensureSummary_spec (r4 : List (String × Json)) :
    (∃ sv, dictGet (ensureSummary r4) "summary_evaluation" = some sv ∧ pyTruthy sv = true)
    ∧ ∀ k, k ≠ "summary_evaluation" → dictGet (ensureSummary r4) k = dictGet r4 k := by
  unfold ensureSummary
  cases hget : dictGet r4 "summary_evaluation" with
  | none =>
    refine ⟨⟨.str "Evaluation completed.", dictGet_dictSet_self _ _ _, by decide⟩, ?_⟩
    intro k hk
    exact dictGet_dictSet_ne _ _ (fun he => hk he.symm)
  | some v =>
    by_cases ht : pyTruthy v = true
    · simp only [ht, if_true]
      exact ⟨⟨v, hget, ht⟩, fun k _ => trivial⟩
    · have ht' : pyTruthy v = false := by simpa using ht
      simp only [ht', Bool.false_eq_true, if_false]
      refine ⟨⟨.str "Evaluation completed.", dictGet_dictSet_self _ _ _, by decide⟩, ?_⟩
      intro k hk
      exact dictGet_dictSet_ne _ _ (fun he => hk he.symm)

theorem ensureSummary_fixed {r : List (String × Json)} {sv : Json}
    (h : dictGet r "summary_evaluation" = some sv) (ht : pyTruthy sv = true) :
    ensureSummary r = r := by
  unfold ensureSummary
  rw [h]
  simp [ht]

/-- Definitional unfolding of the validator on a dict input, with the
intermediate dicts written out. -/
theorem validate_step (r : List (String × Json)) :
    LLMEvaluator.validate_and_fix_response (.obj r) =
      (match dictGet (if dictContains r "scores" then r
              else dictSet r "scores" (.obj [])) "scores" with
       | some (.obj scores0) =>
         match fixCategories scores0 with
         | .error e => .error e
         | .ok scores1 =>
           match sumValues scores1 with
           | .error e => .error e
           | .ok overall =>
             match synthesizeDA (dictSet (dictSet (if dictContains r "scores" then r
                 else dictSet r "scores" (.obj [])) "scores" (.obj scores1))
                 "overall_score" (.num overall)) with
             | .error e => .error e
             | .ok r4 => .ok (.obj (ensureSummary r4))
       | some _ => .error .typeError
       | none => .error .typeError) := rfl

/-- Full behaviour of the validator on inputs whose `scores` values are
numeric and whose suggestion entry is joinable: it succeeds, the result's
scores mapping holds every fixed category (absent ones defaulted to 5,
present ones clamped to [0,10]) and carries all other keys over
unchanged, `overall_score` is overwritten with the exact sum of all
entries of that mapping, `detailed_analysis` is a dict and
`summary_evaluation` is present and truthy. -/
theorem validate_spec (r : List (String × Json))
    (h1 : scoresNumeric r = true) (h2 : suggestionsSafe r = true) :
    ∃ (m sc' : List (String × Json)) (total : ℚ),
      LLMEvaluator.validate_and_fix_response (.obj r) = .ok (.obj m)
      ∧ dictGet m "scores" = some (.obj sc')
      ∧ (∀ c ∈ Config.SCORE_CATEGORIES,
           (dictGet (scoresIn r) c = none → dictGet sc' c = some (.num 5))
           ∧ (∀ q : ℚ, dictGet (scoresIn r) c = some (.num q) →
                dictGet sc' c = some (.num (max 0 (min 10 q)))))
      ∧ (∀ c ∈ Config.SCORE_CATEGORIES,
           ∃ q : ℚ, dictGet sc' c = some (.num q) ∧ 0 ≤ q ∧ q ≤ 10)
      ∧ (∀ k, k ∉ Config.SCORE_CATEGORIES → dictGet sc' k = dictGet (scoresIn r) k)
      ∧ sumValues sc' = .ok total
      ∧ dictGet m "overall_score" = some (.num total)
      ∧ (∃ da, dictGet m "detailed_analysis" = some (.obj da))
      ∧ (∃ sv, dictGet m "summary_evaluation" = some sv ∧ pyTruthy sv = true) := by
  -- the dict after the `scores`-key initialisation, and its properties
  have hbase : dictGet (if dictContains r "scores" then r
        else dictSet r "scores" (.obj [])) "scores" = some (.obj (scoresIn r))
      ∧ (∀ kv ∈ scoresIn r, ∃ q : ℚ, kv.2 = Json.num q)
      ∧ (∀ k, k ≠ "scores" → dictGet (if dictContains r "scores" then r
          else dictSet r "scores" (.obj [])) k = dictGet r k) := by
    unfold scoresNumeric at h1
    cases hs : dictGet r "scores" with
    | none =>
      have hc : dictContains r "scores" = false := by
        unfold dictContains
        rw [hs]
        rfl
      rw [hc]
      have hin : scoresIn r = [] := by unfold scoresIn; rw [hs]
      simp only [Bool.false_eq_true, if_false, hin]
      refine ⟨by simp, by simp, ?_⟩
      intro k hk
      exact dictGet_dictSet_ne _ _ (fun he => hk he.symm)
    | some sj =>
      have hc : dictContains r "scores" = true := by
        unfold dictContains
        rw [hs]
        rfl
      have hif : (if dictContains r "scores" then r
          else dictSet r "scores" (.obj [])) = r := by
        rw [hc]
        simp
      rw [hif]
      rw [hs] at h1
      cases sj with
      | obj sc =>
        have hin : scoresIn r = sc := by unfold scoresIn; rw [hs]
        rw [hin]
        refine ⟨hs, ?_, fun _ _ => rfl⟩
        intro kv hkv
        have hall := (List.all_eq_true.mp h1) kv hkv
        cases hv : kv.2 with
        | num q => exact ⟨q, rfl⟩
        | null => rw [hv] at hall; simp at hall
        | bool b => rw [hv] at hall; simp at hall
        | str s => rw [hv] at hall; simp at hall
        | arr xs => rw [hv] at hall; simp at hall
        | obj kvs => rw [hv] at hall; simp at hall
      | null => simp at h1
      | bool b => simp at h1
      | num q => simp at h1
      | str s => simp at h1
      | arr xs => simp at h1
  obtain ⟨hr1get, hnum, hkeep⟩ := hbase
  obtain ⟨sc', hfold, hnum', hcats, hother⟩ :=
    fixCategories_spec Config.SCORE_CATEGORIES (scoresIn r) hnum (by decide)
  have hfix : fixCategories (scoresIn r) = .ok sc' := hfold
  obtain ⟨total, hsum⟩ := sumValues_ok hnum'
  -- the dict before the detailed-analysis repair
  have h3DA : dictGet (dictSet (dictSet (if dictContains r "scores" then r
      else dictSet r "scores" (.obj [])) "scores" (.obj sc'))
      "overall_score" (.num total)) "detailed_analysis"
      = dictGet r "detailed_analysis" := by
    rw [dictGet_dictSet_ne _ _ (by decide), dictGet_dictSet_ne _ _ (by decide)]
    exact hkeep _ (by decide)
  have h3IS : dictGet (dictSet (dictSet (if dictContains r "scores" then r
      else dictSet r "scores" (.obj [])) "scores" (.obj sc'))
      "overall_score" (.num total)) "improvement_suggestions"
      = dictGet r "improvement_suggestions" := by
    rw [dictGet_dictSet_ne _ _ (by decide), dictGet_dictSet_ne _ _ (by decide)]
    exact hkeep _ (by decide)
  have hsafe3 : suggestionsSafe (dictSet (dictSet (if dictContains r "scores" then r
      else dictSet r "scores" (.obj [])) "scores" (.obj sc'))
      "overall_score" (.num total)) = true := by
    unfold suggestionsSafe at h2 ⊢
    rw [h3DA, h3IS]
    exact h2
  obtain ⟨r4, hDAok⟩ := synthesizeDA_ok hsafe3
  obtain ⟨hDAr4, hDAkeep⟩ := synthesizeDA_ok_spec hDAok
  obtain ⟨⟨sv, hsv, hsvt⟩, hSkeep⟩ := ensureSummary_spec r4
  refine ⟨ensureSummary r4, sc', total, ?_, ?_, hcats, ?_, hother, hsum, ?_, ?_, ⟨sv, hsv, hsvt⟩⟩
  · rw [validate_step]
    simp only [hr1get, hfix, hsum, hDAok]
  · rw [hSkeep _ (by decide), hDAkeep _ (by decide),
      dictGet_dictSet_ne _ _ (by decide), dictGet_dictSet_self]
  · intro c hc
    obtain ⟨himp1, himp2⟩ := hcats c hc
    cases hg : dictGet (scoresIn r) c with
    | none =>
      exact ⟨5, himp1 hg, by norm_num, by norm_num⟩
    | some v =>
      obtain ⟨q, hq⟩ := hnum (c, v) (dictGet_mem hg)
      simp only at hq
      subst hq
      exact ⟨max 0 (min 10 q), himp2 q hg, le_max_left _ _,
        max_le (by norm_num) (min_le_left _ _)⟩
  · rw [hSkeep _ (by decide), hDAkeep _ (by decide), dictGet_dictSet_self]
  · obtain ⟨da, hda⟩ := hDAr4
    exact ⟨da, by rw [hSkeep _ (by decide)]; exact hda⟩

/-- The validator is a Kleisli fixed point on its successes: re-running it
on its own output changes nothing. -/
theorem validate_ok_fixed {r0 : List (String × Json)} {y : Json}
    (h : LLMEvaluator.validate_and_fix_response (.obj r0) = .ok y) :
    LLMEvaluator.validate_and_fix_response y = .ok y := by
  rw [validate_step] at h
  split at h
  case h_2 => cases h
  case h_3 => cases h
  case h_1 scores0 heq =>
    split at h
    case h_1 => cases h
    case h_2 scores1 heq2 =>
      split at h
      case h_1 => cases h
      case h_2 overall heq3 =>
        split at h
        case h_1 => cases h
        case h_2 r4 heq4 =>
          cases h
          obtain ⟨⟨sv, hsv, hsvt⟩, hSkeep⟩ := ensureSummary_spec r4
          obtain ⟨⟨da, hda⟩, hDAkeep⟩ := synthesizeDA_ok_spec heq4
          have hm_scores : dictGet (ensureSummary r4) "scores" = some (.obj scores1) := by
            rw [hSkeep _ (by decide), hDAkeep _ (by decide),
              dictGet_dictSet_ne _ _ (by decide), dictGet_dictSet_self]
          have hm_overall : dictGet (ensureSummary r4) "overall_score"
              = some (.num overall) := by
            rw [hSkeep _ (by decide), hDAkeep _ (by decide), dictGet_dictSet_self]
          have hm_DA : dictGet (ensureSummary r4) "detailed_analysis"
              = some (.obj da) := by
            rw [hSkeep _ (by decide)]
            exact hda
          have hcont : dictContains (ensureSummary r4) "scores" = true := by
            unfold dictContains
            rw [hm_scores]
            rfl
          rw [validate_step]
          simp only [hcont, if_true]
          simp only [hm_scores, fixCategories_idem heq2, heq3,
            dictSet_same hm_scores, dictSet_same hm_overall,
            synthesizeDA_fixed hm_DA, ensureSummary_fixed hsv hsvt]

/-! ## Behaviour of the Retry Controller and the heuristic fallback -/

/-- When every attempt's decoded text yields no parsable JSON, the retry
loop runs to exhaustion and delegates to the heuristic fallback. -/
theorem evaluateAttempts_all_fail (gen : ℕ → Except PyErr (List Char)) (p s : String)
    (hgen : ∀ i t, gen i = .ok t →
      LLMEvaluator.extract_json_from_text (responsePostprocess t) = none) :
    ∀ (k i : ℕ), LLMEvaluator.evaluateAttempts gen p s k i
      = LLMEvaluator.get_default_evaluation p s := by
  intro k
  induction k with
  | zero => intro i; rfl
  | succ n ih =>
    intro i
    unfold LLMEvaluator.evaluateAttempts
    cases hg : gen i with
    | error e => exact ih (i + 1)
    | ok t =>
      simp only [hgen i t hg]
      exact ih (i + 1)

/-- The heuristic fallback succeeds whenever at least one problem word
survives the stop-word removal. -/
theorem heuristic_ok_of_words {p s : String} (hw : problem_words p ≠ []) :
    ∃ r, LLMEvaluator.generate_heuristic_evaluation p s = .ok r := by
  have hlen : (problem_words p).length ≠ 0 := fun h => hw (List.length_eq_zero.mp h)
  have hrel : relevance_score p (lowerL s.data) = .ok (min 9.5 (max 4.0
      ((wordOverlap p (lowerL s.data) : ℚ) / ((problem_words p).length : ℚ) * 10 * 1.5))) := by
    unfold relevance_score
    rw [if_neg hlen]
  unfold LLMEvaluator.generate_heuristic_evaluation heuristic_scores heuristic_overall
  simp only [hrel, exceptBind_ok, exceptPure]
  exact ⟨_, rfl⟩

/-- No key of `m` equals `k` when the lookup misses (list side of the
Python `in` membership used on dict containers). -/
theorem anyKeyEq_false {m : List (String × Json)} {k : String}
    (h : dictGet m k = none) :
    (m.any fun kv => pyEq (.str k) (.str kv.1)) = false := by
  induction m with
  | nil => rfl
  | cons kv rest ih =>
    obtain ⟨k0, v0⟩ := kv
    simp only [dictGet] at h
    by_cases he : k0 = k
    · rw [if_pos he] at h; cases h
    · rw [if_neg he] at h
      simp only [List.any_cons, ih h, Bool.or_false]
      have hpe : pyEq (.str k) (.str k0) = decide (k = k0) := rfl
      rw [hpe]
      exact decide_eq_false (fun hh => he hh.symm)

/-! ## The claims -/

/-- Score lookup in an evaluation result, for stating concrete scenarios. -/
def getScore (result : Except PyErr Json) (category : String) : Option Json :=
  match result with
  | .ok (.obj kvs) =>
    match dictGet kvs "scores" with
    | some (.obj sc) => dictGet sc category
    | _ => none
  | _ => none

/-- The end-to-end scenario inputs of the spec: the web-scraper problem
statement against a summary holding the five named words and no business
keyword. -/
def scenario_problem : String := "Build a web scraper for e-commerce sites"

def scenario_summary : String :=
  "We build a web scraper in python using requests and beautifulsoup. Demo and architecture included."

def scenario_summary_lower : List Char := lowerL scenario_summary.data

/-- C3, failing input: the heuristic fallback scorer divides by the
number of problem words after stop-word removal; a problem statement of
15 characters (≥ 10 after trimming) consisting of stop words leaves that
set empty, and `generate_heuristic_evaluation` raises
`ZeroDivisionError` instead of returning a report — contradicting the
spec's "the system must never return an error to the caller for this
failure mode" and the repository's own test, which calls
`get_default_evaluation()` with an empty problem statement and expects a
report with `overall_score == 25`. -/
theorem C3_code_bug_zero_division :
    (stripL "the the the the".data).length = 15
    ∧ problem_words "the the the the" = []
    ∧ LLMEvaluator.generate_heuristic_evaluation "the the the the" "a clear demo summary"
      = .error .zeroDivisionError :=
  ⟨rfl, rfl, rfl⟩

/-- C4, counterexample: the claim says the parser returns NotFound only
if all three strategies fail, the third being the whole raw text.  On
an input that is valid JSON as a whole but contains fence markers, the
gemini parser substitutes the (unparsable) fenced interior for the raw
text and returns NotFound even though strategy 3 would succeed. -/
theorem C4_counterexample :
    json_loads "\"a```b\"".data = some (.str "a```b")
    ∧ GeminiEvaluator.extract_json_from_text "\"a```b\"".data = none :=
  ⟨rfl, rfl⟩

/-- C4 (amended): the greedy first-brace-to-last-brace span is attempted
first in both parser variants; when fence markers are present the fenced
interior replaces the whole-text attempt in the gemini variant (the raw
text itself is then never attempted), and otherwise the whole raw text
is the final attempt; the llm_evaluator variant has no fence strategy.
The three concrete examples of the claim hold in both variants. -/
theorem C4_parser_strategies :
    (LLMEvaluator.extract_json_from_text "noise \x7b\"a\":1,\"b\":[1,2]\x7d noise".data
        = some (.obj [("a", .num 1), ("b", .arr [.num 1, .num 2])])
      ∧ GeminiEvaluator.extract_json_from_text "noise \x7b\"a\":1,\"b\":[1,2]\x7d noise".data
        = some (.obj [("a", .num 1), ("b", .arr [.num 1, .num 2])]))
    ∧ (GeminiEvaluator.extract_json_from_text "```json\n\x7b\"a\":1\x7d\n```".data
        = GeminiEvaluator.extract_json_from_text "\x7b\"a\":1\x7d".data
      ∧ LLMEvaluator.extract_json_from_text "```json\n\x7b\"a\":1\x7d\n```".data
        = LLMEvaluator.extract_json_from_text "\x7b\"a\":1\x7d".data
      ∧ GeminiEvaluator.extract_json_from_text "\x7b\"a\":1\x7d".data
        = some (.obj [("a", .num 1)]))
    ∧ (LLMEvaluator.extract_json_from_text "hello world".data = none
      ∧ GeminiEvaluator.extract_json_from_text "hello world".data = none)
    ∧ (∀ t span v, spanMatch t = some span → json_loads span = some v →
        LLMEvaluator.extract_json_from_text t = some v
        ∧ GeminiEvaluator.extract_json_from_text t = some v)
    ∧ (∀ t, hasSubL "```json".data t = false → hasSubL "```".data t = false →
        GeminiEvaluator.fenceFallback t = json_loads t) := by
  refine ⟨⟨rfl, rfl⟩, ⟨rfl, rfl, rfl⟩, ⟨rfl, rfl⟩, ?_, ?_⟩
  · intro t span v hspan hload
    constructor
    · unfold LLMEvaluator.extract_json_from_text
      rw [hspan]
      show (match json_loads span with
        | some j => some j
        | none => json_loads t) = some v
      rw [hload]
    · unfold GeminiEvaluator.extract_json_from_text
      rw [hspan]
      show (match json_loads span with
        | some j => some j
        | none => GeminiEvaluator.fenceFallback t) = some v
      rw [hload]
  · intro t h1 h2
    unfold GeminiEvaluator.fenceFallback
    rw [h1, h2]
    simp

/-- C4, witness: the strategy-priority component applied to a concrete
input whose brace span parses. -/
theorem C4_parser_strategies_witness :
    spanMatch "x\x7b\"k\":2\x7dy".data = some "\x7b\"k\":2\x7d".data
    ∧ json_loads "\x7b\"k\":2\x7d".data = some (.obj [("k", .num 2)])
    ∧ LLMEvaluator.extract_json_from_text "x\x7b\"k\":2\x7dy".data = some (.obj [("k", .num 2)])
    ∧ GeminiEvaluator.extract_json_from_text "x\x7b\"k\":2\x7dy".data
      = some (.obj [("k", .num 2)]) := by
  refine ⟨rfl, rfl, ?_, ?_⟩
  · exact (C4_parser_strategies.2.2.2.1 "x\x7b\"k\":2\x7dy".data "\x7b\"k\":2\x7d".data
      (.obj [("k", .num 2)]) rfl rfl).1
  · exact (C4_parser_strategies.2.2.2.1 "x\x7b\"k\":2\x7dy".data "\x7b\"k\":2\x7d".data
      (.obj [("k", .num 2)]) rfl rfl).2

/-- C5, counterexample: the scenario summary contains exactly the five
words the claim names and no business keyword, yet the tech-depth flag
is false — "requests" and "beautifulsoup" are not in the fixed
technology-keyword list, so only one keyword ("python") matches, below
the ≥ 3 threshold — and technical_accuracy is 5.0, not the claimed
8.5. -/
theorem C5_counterexample :
    hasSubL "python".data scenario_summary_lower = true
    ∧ hasSubL "requests".data scenario_summary_lower = true
    ∧ hasSubL "beautifulsoup".data scenario_summary_lower = true
    ∧ hasSubL "demo".data scenario_summary_lower = true
    ∧ hasSubL "architecture".data scenario_summary_lower = true
    ∧ has_biz_plan scenario_summary_lower = false
    ∧ has_tech_depth scenario_summary_lower = false
    ∧ getScore (LLMEvaluator.generate_heuristic_evaluation scenario_problem scenario_summary)
        "technical_accuracy" = some (.num 5.0)
    ∧ (5.0 : ℚ) ≠ 8.5 :=
  ⟨rfl, rfl, rfl, rfl, rfl, rfl, rfl, rfl, by norm_num⟩

/-- C5 (amended): in the scenario, only "python" matches the fixed tech
list (the list contains neither "requests" nor "beautifulsoup"), so the
tech-depth flag is false and technical_accuracy is 5.0; the MVP flag is
true (completeness 8.0) and the business flag false; the problem tokens
are the 7-element set \x7bbuild, web, scraper, for, e, commerce, sites\x7d
("for" is not in the stop-word set and "e-commerce" splits at the
hyphen), of which 3 overlap the summary, giving relevance
round(min(9.5, max(4.0, 3/7·10·1.5)), 1) = 6.4. -/
theorem C5_amended_scenario :
    detected_tech scenario_summary_lower = ["python"]
    ∧ has_tech_depth scenario_summary_lower = false
    ∧ has_mvp scenario_summary_lower = true
    ∧ has_biz_plan scenario_summary_lower = false
    ∧ problem_words scenario_problem = ["build", "web", "scraper", "for", "e", "commerce", "sites"]
    ∧ wordOverlap scenario_problem scenario_summary_lower = 3
    ∧ getScore (LLMEvaluator.generate_heuristic_evaluation scenario_problem scenario_summary)
        "technical_accuracy" = some (.num 5.0)
    ∧ getScore (LLMEvaluator.generate_heuristic_evaluation scenario_problem scenario_summary)
        "completeness" = some (.num 8.0)
    ∧ getScore (LLMEvaluator.generate_heuristic_evaluation scenario_problem scenario_summary)
        "relevance" = some (.num (pyRound (min 9.5 (max 4.0 ((3 : ℚ) / 7 * 10 * 1.5))) 1))
    ∧ pyRound (min 9.5 (max 4.0 ((3 : ℚ) / 7 * 10 * 1.5))) 1 = 6.4 :=
  ⟨rfl, rfl, rfl, rfl, rfl, rfl, rfl, rfl, by rfl, by decide⟩

/-- C10, counterexample: `load_model()` runs before the `try` block of
`calculate_relevance_score`, so a model-loading failure propagates to
the caller instead of being absorbed into the neutral 5.0. -/
theorem C10_counterexample :
    SemanticScorer.calculate_relevance_score (.error .runtimeError) (.ok 0)
      = .error .runtimeError := rfl

/-- C10 (amended): once the embedding model has loaded, the similarity
scorer never raises: an error inside the try block yields the neutral
5.0, and every returned value lies in [0, 10]. -/
theorem C10_similarity_bounds (similarity : Except PyErr ℚ) :
    ∃ q : ℚ, SemanticScorer.calculate_relevance_score (.ok ()) similarity = .ok q
      ∧ 0 ≤ q ∧ q ≤ 10 := by
  cases similarity with
  | error e => exact ⟨5.0, rfl, by norm_num, by norm_num⟩
  | ok sim =>
    refine ⟨pyRound (max 0 (min 10 (sim * 10))) 2, rfl, ?_⟩
    have h1 : (0 : ℚ) ≤ max 0 (min 10 (sim * 10)) := le_max_left _ _
    have h2 : max 0 (min 10 (sim * 10)) ≤ 10 := max_le (by norm_num) (min_le_left _ _)
    exact pyRound_bounds h1 h2 0 1000 (by norm_num [pow10]) (by norm_num [pow10])

/-- C6, counterexample: a generation reply that parses to the JSON array
`["slides"]` cannot be parsed to a JSON object, so the claim requires
the original structure plus a failure indicator; but Python's `"slides"
not in new_structure` is list membership, which succeeds, and
`create_ppt` then raises `AttributeError` on the list's missing `.get`,
so `refine_structure` raises instead of returning. -/
theorem C6_counterexample :
    GeminiEvaluator.extract_json_from_text "[\"slides\"]".data = some (.arr [.str "slides"])
    ∧ PPTReconstructor.refine_structure "[\"slides\"]".data
        (.obj [("slides", .arr [])]) "h" = .error .attributeError :=
  ⟨rfl, rfl⟩

/-- C6 (amended): whenever the generation reply cannot be parsed to any
JSON value, or parses to a JSON object without a top-level "slides" key,
`refine_structure` returns the original structure unchanged together
with a `None` file path — the failure indicator distinguishable from a
successful refinement (which carries the saved file's path). -/
theorem C6_refine_rejects (response_text : List Char) (current_structure : Json)
    (fileHash : String)
    (hfail : GeminiEvaluator.extract_json_from_text response_text = none
      ∨ ∃ m, GeminiEvaluator.extract_json_from_text response_text = some (.obj m)
          ∧ dictGet m "slides" = none) :
    PPTReconstructor.refine_structure response_text current_structure fileHash
      = .ok (.obj [("structure", current_structure), ("file_path", .null)]) := by
  unfold PPTReconstructor.refine_structure
  rcases hfail with hnone | ⟨m, hsome, hslides⟩
  · rw [hnone]
    rfl
  · rw [hsome]
    cases m with
    | nil => rfl
    | cons kv rest =>
      have hany := @anyKeyEq_false (kv :: rest) "slides" hslides
      simp [pyContains, hany]

/-- C6, witness: an unparsable reply at a concrete structure. -/
theorem C6_refine_rejects_witness :
    GeminiEvaluator.extract_json_from_text "no json".data = none
    ∧ PPTReconstructor.refine_structure "no json".data (.obj [("a", .num 1)]) "h"
      = .ok (.obj [("structure", .obj [("a", .num 1)]), ("file_path", .null)]) :=
  ⟨rfl, C6_refine_rejects "no json".data (.obj [("a", .num 1)]) "h" (Or.inl rfl)⟩

/-- C2, counterexample: with a generation oracle that always returns
unparsable text, a stop-word-only problem statement makes the
exhaustion path raise `ZeroDivisionError` (inside the heuristic
fallback, outside any handler), contradicting "this path does not raise
to the caller". -/
theorem C2_counterexample :
    LLMEvaluator.extract_json_from_text (responsePostprocess "no json here".data) = none
    ∧ LLMEvaluator.evaluate (fun _ => .ok "no json here".data) "the the the the" "x" 3
      = .error .zeroDivisionError :=
  ⟨rfl, rfl⟩

/-- C2 (amended): when every generation attempt yields text from which
no JSON can be parsed, `evaluate` returns exactly what the Heuristic
Fallback Scorer returns for the same problem statement and summary —
including raising the very same exception; whenever the problem
statement has at least one token outside the stop-word set, that result
is a successful report, so the path does not raise. -/
theorem C2_retry_fallback_equiv (gen : ℕ → Except PyErr (List Char))
    (problem_statement presentation_summary : String) (maxAttempts : ℕ)
    (hgen : ∀ i t, gen i = .ok t →
      LLMEvaluator.extract_json_from_text (responsePostprocess t) = none) :
    LLMEvaluator.evaluate gen problem_statement presentation_summary maxAttempts
      = LLMEvaluator.generate_heuristic_evaluation problem_statement presentation_summary
    ∧ (problem_words problem_statement ≠ [] →
        ∃ r, LLMEvaluator.evaluate gen problem_statement presentation_summary maxAttempts
          = .ok r) := by
  have he := evaluateAttempts_all_fail gen problem_statement presentation_summary hgen
    maxAttempts 0
  constructor
  · exact he
  · intro hw
    obtain ⟨r, hr⟩ := @heuristic_ok_of_words problem_statement presentation_summary hw
    refine ⟨r, ?_⟩
    show LLMEvaluator.evaluateAttempts gen problem_statement presentation_summary maxAttempts 0
      = .ok r
    rw [he]
    exact hr

/-- C2, witness: three failing attempts against a problem statement with
surviving tokens end in the heuristic's successful report. -/
theorem C2_retry_fallback_equiv_witness :
    problem_words "Build a web scraper for e-commerce sites" ≠ []
    ∧ LLMEvaluator.evaluate (fun _ => .ok "no json here".data)
        "Build a web scraper for e-commerce sites" "x" 3
      = LLMEvaluator.generate_heuristic_evaluation
          "Build a web scraper for e-commerce sites" "x"
    ∧ ∃ r, LLMEvaluator.evaluate (fun _ => .ok "no json here".data)
        "Build a web scraper for e-commerce sites" "x" 3 = .ok r := by
  have h := C2_retry_fallback_equiv (fun _ => .ok "no json here".data)
    "Build a web scraper for e-commerce sites" "x" 3
    (by intro i t ht; cases ht; rfl)
  have hw : problem_words "Build a web scraper for e-commerce sites" ≠ [] := by decide
  exact ⟨hw, h.1, h.2 hw⟩

/-- C7: the Score Combiner satisfies the claimed identities
(`combine(10,10) = 10`, `combine(0,0) = 0`, the 9.0/3.0 → 7.2 instance)
and is monotone in both arguments; in the orchestrator the adjusted
value replaces the relevance entry and `overall_score` is recomputed as
the sum of the updated mapping, with the metadata recording the
original, semantic and adjusted relevance. -/
theorem C7_score_combiner :
    adjusted_relevance 10 10 = 10
    ∧ adjusted_relevance 0 0 = 0
    ∧ adjusted_relevance 9 3 = 7.2
    ∧ (∀ j s s' : ℚ, s ≤ s' → adjusted_relevance j s ≤ adjusted_relevance j s')
    ∧ (∀ j j' s : ℚ, j ≤ j' → adjusted_relevance j s ≤ adjusted_relevance j' s)
    ∧ (∀ (ev scores : List (String × Json)) (r semantic : ℚ) (slide_count : ℕ)
        (summ : String) (total : ℚ),
        dictGet ev "scores" = some (.obj scores) →
        dictGet scores "relevance" = some (.num r) →
        sumValues (dictSet scores "relevance" (.num (adjusted_relevance r semantic)))
          = .ok total →
        ∃ m : List (String × Json),
          EvaluationOrchestrator.combine_results (.obj ev) semantic slide_count summ
            = .ok (.obj m)
          ∧ dictGet m "scores" = some (.obj (dictSet scores "relevance"
              (.num (adjusted_relevance r semantic))))
          ∧ dictGet m "overall_score" = some (.num total)
          ∧ dictGet m "metadata" = some (.obj [
              ("slide_count", .num slide_count),
              ("semantic_relevance_score", .num semantic),
              ("llm_relevance_score", .num r),
              ("adjusted_relevance_score", .num (adjusted_relevance r semantic))])) := by
  refine ⟨by decide, by decide, by decide, ?_, ?_, ?_⟩
  · intro j s s' h
    unfold adjusted_relevance
    apply pyRound_mono
    nlinarith [h]
  · intro j j' s h
    unfold adjusted_relevance
    apply pyRound_mono
    nlinarith [h]
  · intro ev scores r semantic slide_count summ total hsc hrel hsum
    refine ⟨dictSet (dictSet (dictSet (dictSet ev "scores"
        (.obj (dictSet scores "relevance" (.num (adjusted_relevance r semantic)))))
        "overall_score" (.num total)) "metadata" (.obj [
          ("slide_count", .num slide_count),
          ("semantic_relevance_score", .num semantic),
          ("llm_relevance_score", .num r),
          ("adjusted_relevance_score", .num (adjusted_relevance r semantic))]))
        "presentation_summary" (.str summ), ?_, ?_, ?_, ?_⟩
    · unfold EvaluationOrchestrator.combine_results
      simp only [hsc, hrel, pyNumVal, exceptBind_ok, hsum]
      rfl
    · rw [dictGet_dictSet_ne _ _ (by decide), dictGet_dictSet_ne _ _ (by decide),
        dictGet_dictSet_ne _ _ (by decide), dictGet_dictSet_self]
    · rw [dictGet_dictSet_ne _ _ (by decide), dictGet_dictSet_ne _ _ (by decide),
        dictGet_dictSet_self]
    · rw [dictGet_dictSet_ne _ _ (by decide), dictGet_dictSet_self]

/-- C7, witness: the monotone and orchestrator components at concrete
inputs. -/
theorem C7_score_combiner_witness :
    ((3 : ℚ) ≤ 5)
    ∧ adjusted_relevance 2 3 ≤ adjusted_relevance 2 5
    ∧ ∃ m : List (String × Json),
        EvaluationOrchestrator.combine_results
          (.obj [("scores", .obj [("relevance", .num 9), ("clarity", .num 8)])]) 3 4 "s"
          = .ok (.obj m)
        ∧ dictGet m "scores" = some (.obj [("relevance", .num (adjusted_relevance 9 3)),
            ("clarity", .num 8)])
        ∧ dictGet m "overall_score" = some (.num (adjusted_relevance 9 3 + 8))
        ∧ dictGet m "metadata" = some (.obj [
            ("slide_count", .num 4),
            ("semantic_relevance_score", .num 3),
            ("llm_relevance_score", .num 9),
            ("adjusted_relevance_score", .num (adjusted_relevance 9 3))]) := by
  refine ⟨by norm_num, C7_score_combiner.2.2.2.1 2 3 5 (by norm_num), ?_⟩
  exact C7_score_combiner.2.2.2.2.2
    [("scores", .obj [("relevance", .num 9), ("clarity", .num 8)])]
    [("relevance", .num 9), ("clarity", .num 8)] 9 3 4 "s" (adjusted_relevance 9 3 + 8)
    rfl rfl (by rfl)

/-- C1, counterexample: an input whose `scores` mapping has a key
outside the five fixed categories.  The validator keeps the extra key,
so the returned scores mapping has six entries — not "exactly the five
fixed categories" — and `overall_score` is 32 = 7 + 5·5, the sum over
all six entries, not the five-category sum 25. -/
theorem C1_counterexample :
    LLMEvaluator.validate_and_fix_response (.obj [("scores", .obj [("extra", .num 7)])])
      = .ok (.obj [
        ("scores", .obj [("extra", .num 7), ("relevance", .num 5), ("clarity", .num 5),
          ("technical_accuracy", .num 5), ("structure", .num 5), ("completeness", .num 5)]),
        ("overall_score", .num 32),
        ("detailed_analysis", .obj [
          ("technical_depth", .str "Technical review pending. Analysis is brief."),
          ("business_viability", .str "Market impact analysis required."),
          ("presentation_flow", .str "Structure needs further evaluation.")]),
        ("summary_evaluation", .str "Evaluation completed.")])
    ∧ "extra" ∉ Config.SCORE_CATEGORIES
    ∧ (32 : ℚ) ≠ 5 + 5 + 5 + 5 + 5 :=
  ⟨rfl, by decide, by norm_num⟩

/-- C1 (amended): for dict inputs with numeric score values and a
joinable suggestion entry, the returned scores mapping contains the five
fixed categories — absent ones defaulted to 5, present ones clamped to
[0,10] — while any other key of the input's scores mapping is carried
over unchanged, and `overall_score` is overwritten with the exact sum of
all entries of the returned scores mapping; when the input has no extra
score keys this is exactly the five-category sum, as the concrete
five-category instance (clamped to 10 + 0 + 7.5 + 3 + 0 = 20.5,
overriding the provided 999) shows. -/
theorem C1_validator_scores (r : List (String × Json))
    (h1 : scoresNumeric r = true) (h2 : suggestionsSafe r = true) :
    (∃ (m sc' : List (String × Json)) (total : ℚ),
      LLMEvaluator.validate_and_fix_response (.obj r) = .ok (.obj m)
      ∧ dictGet m "scores" = some (.obj sc')
      ∧ (∀ c ∈ Config.SCORE_CATEGORIES,
           (dictGet (scoresIn r) c = none → dictGet sc' c = some (.num 5))
           ∧ (∀ q : ℚ, dictGet (scoresIn r) c = some (.num q) →
                dictGet sc' c = some (.num (max 0 (min 10 q)))))
      ∧ (∀ c ∈ Config.SCORE_CATEGORIES,
           ∃ q : ℚ, dictGet sc' c = some (.num q) ∧ 0 ≤ q ∧ q ≤ 10)
      ∧ (∀ k, k ∉ Config.SCORE_CATEGORIES → dictGet sc' k = dictGet (scoresIn r) k)
      ∧ sumValues sc' = .ok total
      ∧ dictGet m "overall_score" = some (.num total))
    ∧ LLMEvaluator.validate_and_fix_response (.obj [("scores", .obj
        [("relevance", .num 12), ("clarity", .num (-1)), ("technical_accuracy", .num 7.5),
         ("structure", .num 3), ("completeness", .num 0)]),
        ("overall_score", .num 999)])
      = .ok (.obj [("scores", .obj
        [("relevance", .num 10), ("clarity", .num 0), ("technical_accuracy", .num 7.5),
         ("structure", .num 3), ("completeness", .num 0)]),
        ("overall_score", .num 20.5),
        ("detailed_analysis", .obj [
          ("technical_depth", .str "Technical review pending. Analysis is brief."),
          ("business_viability", .str "Market impact analysis required."),
          ("presentation_flow", .str "Structure needs further evaluation.")]),
        ("summary_evaluation", .str "Evaluation completed.")]) := by
  constructor
  · obtain ⟨m, sc', total, ha, hb, hc, hd, he, hf, hg, _, _⟩ := validate_spec r h1 h2
    exact ⟨m, sc', total, ha, hb, hc, hd, he, hf, hg⟩
  · rfl

/-- C1, witness: an input with an extra numeric score key and one
clamped category. -/
theorem C1_validator_scores_witness :
    scoresNumeric [("scores", Json.obj [("extra", .num 7), ("clarity", .num 20)])] = true
    ∧ suggestionsSafe [("scores", Json.obj [("extra", .num 7), ("clarity", .num 20)])] = true
    ∧ ∃ (m sc' : List (String × Json)) (total : ℚ),
      LLMEvaluator.validate_and_fix_response
        (.obj [("scores", Json.obj [("extra", .num 7), ("clarity", .num 20)])])
        = .ok (.obj m)
      ∧ dictGet m "scores" = some (.obj sc')
      ∧ sumValues sc' = .ok total
      ∧ dictGet m "overall_score" = some (.num total) := by
  refine ⟨rfl, rfl, ?_⟩
  obtain ⟨m, sc', total, ha, hb, _, _, _, hf, hg⟩ :=
    (C1_validator_scores [("scores", Json.obj [("extra", .num 7), ("clarity", .num 20)])]
      rfl rfl).1
  exact ⟨m, sc', total, ha, hb, hf, hg⟩

/-- C9, counterexample: a non-numeric entry under a score category makes
the clamp `min(Config.MAX_SCORE, value)` compare a string with an int,
which raises `TypeError` — the validator is not total "regardless of the
shapes or types of the values present". -/
theorem C9_counterexample :
    LLMEvaluator.validate_and_fix_response
      (.obj [("scores", .obj [("relevance", .str "high")])]) = .error .typeError := rfl

/-- C9 (amended): the validator returns a well-formed report without
raising provided the input's `scores` entry, when present, is a mapping
with numeric values and its `improvement_suggestions`, when it feeds the
synthesis, is a list of strings or a non-list: the result is a dict with
the five categories present and in [0,10], a recomputed `overall_score`,
a dict `detailed_analysis` and a truthy `summary_evaluation` (strengths
and weaknesses are not synthesized by this function). -/
theorem C9_validator_never_fails (r : List (String × Json))
    (h1 : scoresNumeric r = true) (h2 : suggestionsSafe r = true) :
    ∃ (m sc' : List (String × Json)),
      LLMEvaluator.validate_and_fix_response (.obj r) = .ok (.obj m)
      ∧ dictGet m "scores" = some (.obj sc')
      ∧ (∀ c ∈ Config.SCORE_CATEGORIES,
           ∃ q : ℚ, dictGet sc' c = some (.num q) ∧ 0 ≤ q ∧ q ≤ 10)
      ∧ (∃ da, dictGet m "detailed_analysis" = some (.obj da))
      ∧ (∃ sv, dictGet m "summary_evaluation" = some sv ∧ pyTruthy sv = true) := by
  obtain ⟨m, sc', total, ha, hb, _, hd, _, _, _, hh, hi⟩ := validate_spec r h1 h2
  exact ⟨m, sc', ha, hb, hd, hh, hi⟩

/-- C9, witness: an input with no scores at all and unrelated keys. -/
theorem C9_validator_never_fails_witness :
    scoresNumeric [("strengths", Json.arr [.str "x"])] = true
    ∧ suggestionsSafe [("strengths", Json.arr [.str "x"])] = true
    ∧ ∃ (m sc' : List (String × Json)),
      LLMEvaluator.validate_and_fix_response (.obj [("strengths", Json.arr [.str "x"])])
        = .ok (.obj m)
      ∧ dictGet m "scores" = some (.obj sc')
      ∧ (∀ c ∈ Config.SCORE_CATEGORIES,
           ∃ q : ℚ, dictGet sc' c = some (.num q) ∧ 0 ≤ q ∧ q ≤ 10)
      ∧ (∃ da, dictGet m "detailed_analysis" = some (.obj da))
      ∧ (∃ sv, dictGet m "summary_evaluation" = some sv ∧ pyTruthy sv = true) :=
  ⟨rfl, rfl, C9_validator_never_fails [("strengths", Json.arr [.str "x"])] rfl rfl⟩

/-- C8: the Schema Validator/Repairer is idempotent — running it on its
own output returns that output unchanged, and when the first run raises,
the composite raises that same exception, so
`validate(validate(x)) == validate(x)` in Python's raise-propagating
composition. -/
theorem C8_validator_idempotent (x : Json) :
    (LLMEvaluator.validate_and_fix_response x >>= LLMEvaluator.validate_and_fix_response)
      = LLMEvaluator.validate_and_fix_response x := by
  cases x with
  | obj r0 =>
    cases hv : LLMEvaluator.validate_and_fix_response (.obj r0) with
    | error e => rfl
    | ok y =>
      simp only [exceptBind_ok]
      exact validate_ok_fixed hv
  | null => rfl
  | bool b => rfl
  | num q => rfl
  | str s => rfl
  | arr xs => rfl
